import Mathlib

/-!
Verification of the CRM migration scheduling and case-workflow engine.

The definitions below are a shallow embedding of `migration/models.py` and
the services in `migration/services/` (scheduling, documentos, revision,
requisitos) together with the two views of `migration/views.py` that drive
the case-folder state machine.  Time instants are modelled as minutes since
an epoch that falls on a Monday at 00:00 local time, so that
`weekday = (t / 1440) % 7` matches Python's `date.weekday()` (0 = Monday).
Database tables are lists of rows; a Django `save()` that raises a
`ValidationError` persists nothing, which the model renders as an `Except`
that returns the new database only in the `ok` case.
-/

/-- A local time instant: minutes since a Monday-00:00 epoch. -/
abbrev Instante := Nat

/-- The calendar date of an instant, as a day count. -/
def fechaDe (t : Instante) : Nat := t / 1440

/-- The hour-of-day of an instant (`inicio_local.hour`). -/
def horaDe (t : Instante) : Nat := t % 1440 / 60

/-- Python `date.weekday()`: 0 = Monday … 6 = Sunday. -/
def diaSemana (f : Nat) : Nat := f % 7

def HORA_INICIO_ATENCION : Nat := 8
def HORA_FIN_ATENCION : Nat := 12
def DURACION_CITA_HORAS : Nat := 1
def MAXIMO_SEMANAS_ANTICIPACION : Nat := 2
def DIAS_LABORALES : List Nat := [0, 1, 2, 3, 4, 5]

def DIAS_MINIMOS_CANCELACION : Int := 3
def DIAS_MINIMOS_REPROGRAMACION : Int := 3

/-- Appointment states of `Cita` (`migration/models.py`). -/
inductive EstadoCita
  | pendiente
  | realizada
  | cancelada
  | exitosa
deriving DecidableEq, Repr

/-- Document / requirement states (`ESTADOS_DOCUMENTO` in models.py). -/
inductive EstadoDocumento
  | pendiente
  | revisado
  | faltante
deriving DecidableEq, Repr

/-- Case-folder states (`ESTADOS_CARPETA` in models.py). -/
inductive EstadoCarpeta
  | pendiente
  | aprobado
  | rechazado
  | cerradaAceptada
  | cerradaRechazada
deriving DecidableEq, Repr

/-- Every distinct `raise ValidationError(...)` / `Http404` site of the
embedded code gets its own constructor, so an error names the specific rule
it reports. -/
inductive Err
  | horarioAtencion
  | diaLaboral
  | fechaPasada
  | fechaMuyLejana
  | horaPasada
  | citaPendienteExistente
  | agenteInicioDuplicado
  | sinAgentesDisponibles
  | sinAgentesNuevoHorario
  | soloPendientesCancelar
  | tiempoCancelacion
  | soloPendientesReprogramar
  | tiempoReprogramacion
  | soloPendientesExitosa
  | sinCitaPendiente
  | cargaDeshabilitada
  | versionPendiente
  | yaAprobado
  | sinCedula
  | sinTipoVisa
  | tipoVisaNoValido
  | sinRequisitosConfigurados
  | soloRevisarPendientes
  | noEncontrado
deriving DecidableEq, Repr

/-- Source `Solicitante` row (empty strings model unset optional fields). -/
structure Solicitante where
  id : Nat
  nombre : String
  cedula : String
  tipoVisa : String
deriving DecidableEq, Repr

/-- Source `Agente` row. -/
structure Agente where
  id : Nat
  nombre : String
  activo : Bool
deriving DecidableEq, Repr

/-- Source `Cita` row.  The start field `inicio` of the source is rendered
`inicioCita`. -/
structure Cita where
  id : Nat
  solicitanteId : Nat
  agenteId : Nat
  inicioCita : Instante
  finCita : Instante
  estado : EstadoCita
deriving DecidableEq, Repr

/-- Source `Requisito` row. -/
structure Requisito where
  id : Nat
  solicitanteId : Nat
  nombre : String
  estado : EstadoDocumento
  cargaHabilitada : Bool
  observaciones : String
deriving DecidableEq, Repr

/-- Source `Documento` row. -/
structure Documento where
  id : Nat
  requisitoId : Nat
  version : Nat
  estado : EstadoDocumento
  nombreArchivo : String
deriving DecidableEq, Repr

/-- Source `Carpeta` row. -/
structure Carpeta where
  id : Nat
  solicitanteId : Nat
  estado : EstadoCarpeta
  observaciones : String
deriving DecidableEq, Repr

/-- Source `TipoVisa` row. -/
structure TipoVisa where
  codigo : String
  nombre : String
  activo : Bool
deriving DecidableEq, Repr

/-- The persisted state: one list per table.  `requisitosPorVisa` stands for
the `RequisitoVisa` catalog table, whose model class is not part of the
sources (only its callers are); it is kept as read-only configuration, an
ordered requirement-code list per visa-type code. -/
structure DB where
  solicitantes : List Solicitante
  agentes : List Agente
  citas : List Cita
  requisitos : List Requisito
  documentos : List Documento
  carpetas : List Carpeta
  tiposVisa : List TipoVisa
  requisitosPorVisa : List (String × List String)
deriving DecidableEq, Repr

/-- Sequencing of validations: the first `ValidationError` wins. -/
def seqE {α : Type} (a : Except Err Unit) (b : Except Err α) : Except Err α :=
  match a with
  | .error e => .error e
  | .ok _ => b

/-- Source `Solicitante.tiene_cita_pendiente` (models.py). -/
def tieneCitaPendiente (db : DB) (solId : Nat) : Bool :=
  db.citas.any fun c => c.solicitanteId == solId && c.estado == .pendiente

/-- Source `Agente.tiene_cita_en_horario` (models.py): a pending appointment of
this agent starting exactly at the given instant. -/
def agenteTieneCitaEnHorario (db : DB) (agId : Nat) (inicioLocal : Instante) : Bool :=
  db.citas.any fun c =>
    c.agenteId == agId && c.inicioCita == inicioLocal && c.estado == .pendiente

/-- Source `Cita._calcular_fin`: start plus the fixed appointment duration. -/
def calcularFin (inicioLocal : Instante) : Instante :=
  inicioLocal + 60 * DURACION_CITA_HORAS

/-- Source `Cita._validar_horario_atencion`. -/
def validarHorarioAtencion (inicioLocal : Instante) : Except Err Unit :=
  if HORA_INICIO_ATENCION ≤ horaDe inicioLocal ∧ horaDe inicioLocal < HORA_FIN_ATENCION then
    .ok ()
  else
    .error .horarioAtencion

/-- Source `Cita._validar_dia_laboral`. -/
def validarDiaLaboral (fecha : Nat) : Except Err Unit :=
  if diaSemana fecha ∈ DIAS_LABORALES then .ok () else .error .diaLaboral

/-- Source `Cita._validar_rango_fechas`: today up to `MAXIMO_SEMANAS_ANTICIPACION`
weeks ahead. -/
def validarRangoFechas (fechaCita : Nat) (ahora : Instante) : Except Err Unit :=
  let hoy := fechaDe ahora
  let fechaMaxima := hoy + 7 * MAXIMO_SEMANAS_ANTICIPACION
  if fechaCita < hoy then .error .fechaPasada
  else if fechaCita > fechaMaxima then .error .fechaMuyLejana
  else .ok ()

/-- Source `Cita._validar_hora_no_pasada`. -/
def validarHoraNoPasada (inicioLocal ahora : Instante) : Except Err Unit :=
  if inicioLocal ≤ ahora then .error .horaPasada else .ok ()

/-- Source `Cita._validar_cita_pendiente_existente`: only a new row (no primary
key yet) is rejected when the applicant already has a pending appointment;
an update returns early. -/
def validarCitaPendienteExistente (db : DB) (c : Cita) (esNueva : Bool) :
    Except Err Unit :=
  if tieneCitaPendiente db c.solicitanteId then
    if esNueva then .error .citaPendienteExistente else .ok ()
  else .ok ()

/-- Source `Cita.clean`: all business validations, in source order.  The
`inicio`-missing check of the source is unrepresentable here because
`inicioCita` is total. -/
def Cita.clean (db : DB) (c : Cita) (esNueva : Bool) (ahora : Instante) :
    Except Err Unit :=
  seqE (validarHorarioAtencion c.inicioCita)
    (seqE (validarDiaLaboral (fechaDe c.inicioCita))
      (seqE (validarRangoFechas (fechaDe c.inicioCita) ahora)
        (seqE (validarHoraNoPasada c.inicioCita ahora)
          (validarCitaPendienteExistente db c esNueva))))

/-- The `uniq_agente_inicio` constraint as checked by
`full_clean`/`validate_unique`: no other row shares (agente, inicio). -/
def Cita.validateUnique (db : DB) (c : Cita) : Except Err Unit :=
  if db.citas.any (fun o =>
      o.agenteId == c.agenteId && o.inicioCita == c.inicioCita && o.id != c.id) then
    .error .agenteInicioDuplicado
  else .ok ()

/-- Body of `Cita.save` after `fin` is recomputed: `full_clean` (clean then
the unique check), then persist — append for a new row, in-place replace by
id for an update. -/
def Cita.persistir (db : DB) (c : Cita) (esNueva : Bool) (ahora : Instante) :
    Except Err (Cita × DB) :=
  seqE (Cita.clean db c esNueva ahora)
    (seqE (Cita.validateUnique db c)
      (if esNueva then
        .ok (c, { db with citas := db.citas ++ [c] })
      else
        .ok (c, { db with citas := db.citas.map fun o => if o.id == c.id then c else o })))

/-- Source `Cita.save`: recompute `fin`, then `full_clean` and persist.  A raised
`ValidationError` persists nothing. -/
def Cita.save (db : DB) (c : Cita) (esNueva : Bool) (ahora : Instante) :
    Except Err (Cita × DB) :=
  Cita.persistir db { c with finCita := calcularFin c.inicioCita } esNueva ahora

/-- First id not used by any `Cita` row. -/
def nextCitaId (db : DB) : Nat :=
  (db.citas.map Cita.id).foldr max 0 + 1

/-- Lexicographic order on char codes, the `order_by("nombre")` sort key. -/
def cadenaLeAux : List Char → List Char → Bool
  | [], _ => true
  | _ :: _, [] => false
  | a :: as, b :: bs =>
    if a.toNat < b.toNat then true
    else if b.toNat < a.toNat then false
    else cadenaLeAux as bs

/-- Lexicographic order on strings. -/
def cadenaLe (a b : String) : Bool := cadenaLeAux a.data b.data

/-- The element of least `nombre`; on ties the earlier one, matching a
stable `order_by("nombre").first()`. -/
def minPorNombre : List Agente → Option Agente
  | [] => none
  | a :: resto =>
    match minPorNombre resto with
    | none => some a
    | some b => if cadenaLe a.nombre b.nombre then some a else some b

/-- An agent is active and free (no pending appointment) at the instant. -/
def agenteDisponible (db : DB) (a : Agente) (inicioSolicitado : Instante) : Bool :=
  a.activo && !agenteTieneCitaEnHorario db a.id inicioSolicitado

/-- Source `buscar_agente_disponible` (scheduling.py): among active agents without
a pending appointment at exactly the requested start, the first by name. -/
def buscarAgenteDisponible (db : DB) (inicioSolicitado : Instante) : Option Agente :=
  minPorNombre (db.agentes.filter fun a => agenteDisponible db a inicioSolicitado)

/-- Source `SolicitudAgendamiento` (scheduling.py). -/
structure SolicitudAgendamiento where
  solicitanteId : Nat
  inicioCita : Instante
deriving Repr

/-- Source `validar_solicitante_sin_cita_pendiente` (scheduling.py). -/
def validarSolicitanteSinCitaPendiente (db : DB) (solId : Nat) : Except Err Unit :=
  if tieneCitaPendiente db solId then .error .citaPendienteExistente else .ok ()

/-- Source `agendar_cita` (scheduling.py): duplicate pre-check, agent selection,
then creation of a pending `Cita` whose `fin` is computed by `save`. -/
def agendarCita (db : DB) (s : SolicitudAgendamiento) (ahora : Instante) :
    Except Err (Cita × DB) :=
  seqE (validarSolicitanteSinCitaPendiente db s.solicitanteId)
    (match buscarAgenteDisponible db s.inicioCita with
     | none => .error .sinAgentesDisponibles
     | some agente =>
       Cita.save db
         { id := nextCitaId db
           solicitanteId := s.solicitanteId
           agenteId := agente.id
           inicioCita := s.inicioCita
           finCita := 0
           estado := .pendiente }
         true ahora)

/-- Source `calcular_dias_restantes` (scheduling.py): date difference in days. -/
def calcularDiasRestantes (c : Cita) (ahora : Instante) : Int :=
  (fechaDe c.inicioCita : Int) - (fechaDe ahora : Int)

/-- Source `validar_tiempo_reprogramacion` (scheduling.py). -/
def validarTiempoReprogramacion (c : Cita) (ahora : Instante) : Except Err Unit :=
  if calcularDiasRestantes c ahora < DIAS_MINIMOS_REPROGRAMACION then
    .error .tiempoReprogramacion
  else .ok ()

/-- Source `validar_cita_pendiente` (scheduling.py). -/
def validarCitaPendienteEstado (c : Cita) : Except Err Unit :=
  if c.estado ≠ .pendiente then .error .soloPendientesReprogramar else .ok ()

/-- Source `reprogramar_cita` (scheduling.py): pending check, lead-time check,
fresh agent search at the new start, then an in-place update through
`Cita.save` (which re-runs every `clean` validation). -/
def reprogramarCita (db : DB) (c : Cita) (inicioNuevo ahora : Instante) :
    Except Err (Cita × DB) :=
  seqE (validarCitaPendienteEstado c)
    (seqE (validarTiempoReprogramacion c ahora)
      (match buscarAgenteDisponible db inicioNuevo with
       | none => .error .sinAgentesNuevoHorario
       | some agente =>
         Cita.save db { c with inicioCita := inicioNuevo, agenteId := agente.id }
           false ahora))

/-- Source `Cita.es_fecha_cita_hoy` (models.py). -/
def esFechaCitaHoy (c : Cita) (ahora : Instante) : Bool :=
  fechaDe c.inicioCita == fechaDe ahora

/-- Source `Cita.marcar_como_exitosa` (models.py): only the `estado` field is
updated, through `super().save(update_fields=["estado"])`, bypassing
`full_clean`. -/
def marcarComoExitosa (db : DB) (c : Cita) : Except Err (Cita × DB) :=
  if c.estado ≠ .pendiente then .error .soloPendientesExitosa
  else
    let c2 := { c with estado := .exitosa }
    .ok (c2, { db with citas := db.citas.map fun o => if o.id == c.id then c2 else o })

/-- Source `obtener_cita_pendiente` (services/requisitos.py). -/
def obtenerCitaPendiente (db : DB) (solId : Nat) : Except Err Cita :=
  match db.citas.find? (fun c => c.solicitanteId == solId && c.estado == .pendiente) with
  | none => .error .sinCitaPendiente
  | some c => .ok c

/-- Source `marcar_cita_exitosa` (services/requisitos.py). -/
def marcarCitaExitosa (db : DB) (solId : Nat) : Except Err (Cita × DB) :=
  match obtenerCitaPendiente db solId with
  | .error e => .error e
  | .ok c => marcarComoExitosa db c

/-- The document rows of one requirement. -/
def documentosDe (db : DB) (reqId : Nat) : List Documento :=
  db.documentos.filter fun d => d.requisitoId == reqId

/-- Source `Requisito.obtener_documento_actual`: the row with the greatest
`version`; on (ill-formed) ties the earlier row, matching a stable
`order_by("-version").first()`. -/
def docActual : List Documento → Option Documento
  | [] => none
  | d :: resto =>
    match docActual resto with
    | none => some d
    | some b => if d.version < b.version then some b else some d

/-- Source `Requisito.obtener_ultima_version`: greatest version, 0 when none. -/
def ultimaVersion (db : DB) (reqId : Nat) : Nat :=
  match docActual (documentosDe db reqId) with
  | none => 0
  | some d => d.version

/-- Source `Requisito.puede_subir_nuevo_documento`. -/
def puedeSubirNuevoDocumento (db : DB) (r : Requisito) : Bool :=
  r.cargaHabilitada &&
    (match docActual (documentosDe db r.id) with
     | none => true
     | some d => d.estado == .faltante)

/-- Replace the requirement row with the same id. -/
def updateRequisito (db : DB) (r : Requisito) : DB :=
  { db with requisitos := db.requisitos.map fun x => if x.id == r.id then r else x }

/-- Replace the document row with the same id. -/
def updateDocumento (db : DB) (d : Documento) : DB :=
  { db with documentos := db.documentos.map fun x => if x.id == d.id then d else x }

/-- Replace the folder row with the same id. -/
def updateCarpeta (db : DB) (c : Carpeta) : DB :=
  { db with carpetas := db.carpetas.map fun x => if x.id == c.id then c else x }

/-- Source `Requisito.actualizar_estado_segun_documento`: copy the state of the
latest document version onto the requirement (no-op without versions). -/
def actualizarEstadoSegunDocumento (db : DB) (r : Requisito) : Requisito × DB :=
  match docActual (documentosDe db r.id) with
  | none => (r, db)
  | some d =>
    ({ r with estado := d.estado }, updateRequisito db { r with estado := d.estado })

/-- Source `validar_solicitante_para_carga` (documentos.py). -/
def validarSolicitanteParaCarga (sol : Solicitante) : Except Err Unit :=
  if sol.cedula = "" then .error .sinCedula
  else if sol.tipoVisa = "" then .error .sinTipoVisa
  else .ok ()

/-- Source `validar_carga_documento` (documentos.py): upload gating with the
source's three distinct error sites. -/
def validarCargaDocumento (db : DB) (r : Requisito) : Except Err Unit :=
  if !r.cargaHabilitada then .error .cargaDeshabilitada
  else if !puedeSubirNuevoDocumento db r then
    match docActual (documentosDe db r.id) with
    | some d =>
      if d.estado = .pendiente then .error .versionPendiente
      else if d.estado = .revisado then .error .yaAprobado
      else .ok ()
    | none => .ok ()
  else .ok ()

/-- First id not used by any `Requisito` row. -/
def nextRequisitoId (db : DB) : Nat :=
  (db.requisitos.map Requisito.id).foldr max 0 + 1

/-- First id not used by any `Documento` row. -/
def nextDocumentoId (db : DB) : Nat :=
  (db.documentos.map Documento.id).foldr max 0 + 1

/-- First id not used by any `Carpeta` row. -/
def nextCarpetaId (db : DB) : Nat :=
  (db.carpetas.map Carpeta.id).foldr max 0 + 1

/-- Defaults of a requirement created by `get_or_create`: state missing,
upload enabled. -/
def requisitoNuevo (db : DB) (solId : Nat) (nombre : String) : Requisito :=
  { id := nextRequisitoId db, solicitanteId := solId, nombre := nombre
    estado := .faltante, cargaHabilitada := true, observaciones := "" }

/-- Source `obtener_o_crear_requisito` (documentos.py): `get_or_create` on
(solicitante, nombre) with defaults missing / upload enabled. -/
def obtenerOCrearRequisito (db : DB) (solId : Nat) (nombre : String) :
    Requisito × DB :=
  match db.requisitos.find? (fun r => r.solicitanteId == solId && r.nombre == nombre) with
  | some r => (r, db)
  | none =>
    (requisitoNuevo db solId nombre,
     { db with requisitos := db.requisitos ++ [requisitoNuevo db solId nombre] })

/-- Defaults of a folder created by `get_or_create`: state `pendiente`
(open). -/
def carpetaNueva (db : DB) (solId : Nat) : Carpeta :=
  { id := nextCarpetaId db, solicitanteId := solId
    estado := .pendiente, observaciones := "" }

/-- Source `obtener_o_crear_carpeta` (documentos.py). -/
def obtenerOCrearCarpeta (db : DB) (solId : Nat) : Carpeta × DB :=
  match db.carpetas.find? (fun c => c.solicitanteId == solId) with
  | some c => (c, db)
  | none =>
    (carpetaNueva db solId, { db with carpetas := db.carpetas ++ [carpetaNueva db solId] })

/-- The document row `subir_documento` creates: next version of the
requirement, state pending, carrying the uploaded file name. -/
def docNuevo (db1 : DB) (reqId : Nat) (nombreArchivo : String) : Documento :=
  { id := nextDocumentoId db1, requisitoId := reqId
    version := ultimaVersion db1 reqId + 1, estado := .pendiente
    nombreArchivo := nombreArchivo }

/-- Post-validation body of `subir_documento`: create the document row,
disable upload, resynchronise the requirement state from its latest
version, and make sure the applicant's folder exists. -/
def subirDocumentoNucleo (db1 : DB) (requisito : Requisito) (solId : Nat)
    (nombreArchivo : String) : Documento × DB :=
  (docNuevo db1 requisito.id nombreArchivo,
   (obtenerOCrearCarpeta
      (actualizarEstadoSegunDocumento
         (updateRequisito
            { db1 with documentos := db1.documentos ++ [docNuevo db1 requisito.id nombreArchivo] }
            { requisito with cargaHabilitada := false })
         { requisito with cargaHabilitada := false }).2
      solId).2)

/-- Source `subir_documento` (documentos.py): validations, version computation,
document creation, upload gating and requirement-state synchronisation.
The physical blob write is the external blob-store collaborator and keeps
no state here beyond the stored file name. -/
def subirDocumento (db : DB) (sol : Solicitante) (nombreRequisito nombreArchivo : String) :
    Except Err (Documento × DB) :=
  seqE (validarSolicitanteParaCarga sol)
    (seqE (validarCargaDocumento (obtenerOCrearRequisito db sol.id nombreRequisito).2
            (obtenerOCrearRequisito db sol.id nombreRequisito).1)
      (.ok (subirDocumentoNucleo (obtenerOCrearRequisito db sol.id nombreRequisito).2
              (obtenerOCrearRequisito db sol.id nombreRequisito).1 sol.id nombreArchivo)))

/-- Source `validar_documento_pendiente` (revision.py). -/
def validarDocumentoPendiente (d : Documento) : Except Err Unit :=
  if d.estado ≠ .pendiente then .error .soloRevisarPendientes else .ok ()

/-- Source `aprobar_documento` (revision.py): mark the version reviewed, disable
upload and resynchronise the requirement state.  The source clears
`requisito.observaciones` on the in-memory object only — the following
saves list `update_fields` without it, so the stored value is kept. -/
def aprobarDocumento (db : DB) (d : Documento) : Except Err (Documento × DB) :=
  seqE (validarDocumentoPendiente d)
    (match db.requisitos.find? (fun r => r.id == d.requisitoId) with
     | none => .error .noEncontrado
     | some requisito =>
       .ok ({ d with estado := .revisado },
         (actualizarEstadoSegunDocumento
            (updateRequisito (updateDocumento db { d with estado := .revisado })
               { requisito with cargaHabilitada := false })
            { requisito with cargaHabilitada := false }).2))

/-- Source `rechazar_documento` (revision.py): mark the version missing, store the
reasons, re-enable upload and resynchronise the requirement state. -/
def rechazarDocumento (db : DB) (d : Documento) (razones : String) :
    Except Err (Documento × DB) :=
  seqE (validarDocumentoPendiente d)
    (match db.requisitos.find? (fun r => r.id == d.requisitoId) with
     | none => .error .noEncontrado
     | some requisito =>
       .ok ({ d with estado := .faltante },
         (actualizarEstadoSegunDocumento
            (updateRequisito (updateDocumento db { d with estado := .faltante })
               { requisito with observaciones := razones, cargaHabilitada := true })
            { requisito with observaciones := razones, cargaHabilitada := true }).2))

/-- Source `verificar_todos_documentos_revisados` (revision.py): every requirement
of the applicant has a latest version and it is reviewed; false when the
applicant has no requirements. -/
def verificarTodosDocumentosRevisados (db : DB) (solId : Nat) : Bool :=
  let reqs := db.requisitos.filter fun r => r.solicitanteId == solId
  !reqs.isEmpty &&
    reqs.all fun r =>
      match docActual (documentosDe db r.id) with
      | some d => d.estado == .revisado
      | none => false

/-- Source `marcar_carpeta_aprobada` (revision.py): set the applicant's folder
(created if absent) to state `aprobado`. -/
def marcarCarpetaAprobada (db : DB) (solId : Nat) : Carpeta × DB :=
  ({ (obtenerOCrearCarpeta db solId).1 with estado := .aprobado },
   updateCarpeta (obtenerOCrearCarpeta db solId).2
     { (obtenerOCrearCarpeta db solId).1 with estado := .aprobado })

/-- The two actions of `RevisionDocumentoForm`. -/
inductive AccionRevision
  | aprobar
  | rechazar
deriving DecidableEq, Repr

/-- The applicant who owns a document, through its requirement. -/
def solicitanteDeDocumento (db : DB) (docId : Nat) : Option Nat :=
  match db.documentos.find? (fun d => d.id == docId) with
  | none => none
  | some d =>
    match db.requisitos.find? (fun r => r.id == d.requisitoId) with
    | none => none
    | some r => some r.solicitanteId

/-- Source `RevisarDocumentoView.post`: `get_object_or_404` restricted to pending
documents, then approve (with the automatic folder transition when every
requirement is reviewed) or reject. -/
def revisarDocumentoPost (db : DB) (docId : Nat) (accion : AccionRevision)
    (observaciones : String) : Except Err DB :=
  match db.documentos.find? (fun d => d.id == docId && d.estado == .pendiente) with
  | none => .error .noEncontrado
  | some documento =>
    match accion with
    | .aprobar =>
      match aprobarDocumento db documento with
      | .error e => .error e
      | .ok (d2, db1) =>
        match solicitanteDeDocumento db1 d2.id with
        | none => .ok db1
        | some solId =>
          if verificarTodosDocumentosRevisados db1 solId then
            .ok (marcarCarpetaAprobada db1 solId).2
          else
            .ok db1
    | .rechazar =>
      match rechazarDocumento db documento observaciones with
      | .error e => .error e
      | .ok (_, db1) => .ok db1

/-- The two outcomes of `RegistrarResultadoVisaForm`. -/
inductive ResultadoVisa
  | aprobada
  | rechazada
deriving DecidableEq, Repr

/-- Source `RegistrarResultadoVisaView.post`: `get_object_or_404` restricted to
folders in state `aprobado`; close as accepted, or as rejected storing the
reason in `observaciones`. -/
def registrarResultadoVisaPost (db : DB) (carpetaId : Nat) (resultado : ResultadoVisa)
    (motivo : String) : Except Err DB :=
  match db.carpetas.find? (fun c => c.id == carpetaId && c.estado == .aprobado) with
  | none => .error .noEncontrado
  | some carpeta =>
    match resultado with
    | .aprobada =>
      .ok (updateCarpeta db { carpeta with estado := .cerradaAceptada })
    | .rechazada =>
      .ok (updateCarpeta db
        { carpeta with estado := .cerradaRechazada, observaciones := motivo })

/-- Floor of the base-2 logarithm, computed with an explicit fuel argument so
that the recursion is structural and kernel-reducible. -/
def log2Fuel : Nat → Nat → Nat
  | 0, _ => 0
  | fuel + 1, n => if 2 ≤ n then log2Fuel fuel (n / 2) + 1 else 0

/-- Floor of the base-2 logarithm of a natural number (`0` at `0`). -/
def log2N (n : Nat) : Nat := log2Fuel n n

/-- Nearest integer to `pn / qn`, ties to the even neighbour (the IEEE-754
default rounding used by CPython floats); the denominator is positive at
every use. -/
def neDiv (pn qn : Nat) : Nat :=
  if 2 * (pn % qn) < qn then pn / qn
  else if qn < 2 * (pn % qn) then pn / qn + 1
  else if pn / qn % 2 = 0 then pn / qn else pn / qn + 1

/-- Floor of the base-2 logarithm of the fraction `p / q` (for `1 ≤ p`,
`1 ≤ q`), computed by scaling the numerator so a single natural-number
logarithm suffices. -/
def expDe (p q : Nat) : Int :=
  (log2N ((p * 2 ^ (log2N q + 53)) / q) : Int) - (log2N q + 53)

/-- Exponent of the binary64 rounding grid for the value `p / q`: 52 bits
below the leading bit, clamped at the subnormal grid `2 ^ (-1074)`. -/
def gridDe (p q : Nat) : Int := max (expDe p q - 52) (-1074)

/-- Numerator of `p / q` rescaled by `2 ^ (-gridDe p q)`. -/
def numEscalado (p q : Nat) : Nat :=
  if 0 ≤ gridDe p q then p else p * 2 ^ (-gridDe p q).toNat

/-- Denominator of `p / q` rescaled by `2 ^ (-gridDe p q)`. -/
def denEscalado (p q : Nat) : Nat :=
  if 0 ≤ gridDe p q then q * 2 ^ (gridDe p q).toNat else q

/-- Binary64 significand of `p / q` rounded to nearest, ties to even: the
rounded float value is `redondear p q * 2 ^ gridDe p q`. This is the exact
dyadic semantics of CPython int-by-int true division `p / q` (correctly
rounded to binary64, gradual underflow included; the magnitudes reached
here, at most about 100, are far below overflow). -/
def redondear (p q : Nat) : Nat := neDiv (numEscalado p q) (denEscalado p q)

/-- Truncation toward zero of the nonnegative dyadic `m * 2 ^ g`: Python
`int(...)` applied to a nonnegative float. -/
def truncDe (m : Nat) (g : Int) : Nat :=
  if 0 ≤ g then m * 2 ^ g.toNat else m / 2 ^ (-g).toNat

/-- Numerator of the exact product `(m * 2 ^ g) * 100` as a fraction. -/
def mulCienNum (m : Nat) (g : Int) : Nat :=
  if 0 ≤ g then m * 100 * 2 ^ g.toNat else m * 100

/-- Denominator of the exact product `(m * 2 ^ g) * 100` as a fraction. -/
def mulCienDen (g : Int) : Nat :=
  if 0 ≤ g then 1 else 2 ^ (-g).toNat

/-- Numerator of the exact product `float(aprobados / total) * 100`. -/
def cienNum (a t : Nat) : Nat := mulCienNum (redondear a t) (gridDe a t)

/-- Denominator of the exact product `float(aprobados / total) * 100`. -/
def cienDen (a t : Nat) : Nat := mulCienDen (gridDe a t)

/-- Source expression `int((aprobados / total) * 100)` under binary64
semantics: `aprobados / total` is correctly rounded float division,
`* 100` a correctly rounded float product (100 is exactly representable),
`int()` truncation toward zero. -/
def porcentajeFloat (a t : Nat) : Nat :=
  truncDe (redondear (cienNum a t) (cienDen a t))
    (gridDe (cienNum a t) (cienDen a t))

/-- Rational value of the rounded dyadic `redondear p q * 2 ^ gridDe p q`,
used only to state and prove properties of the rounding. -/
def flQ (p q : Nat) : ℚ := (redondear p q : ℚ) * (2 : ℚ) ^ gridDe p q

/-- Source `progreso_documentos` as computed in `SolicitantePanelView` /
`SolicitanteDetailView`: `int((aprobados / total) * 100)` evaluated in
binary64 floating point, 0 without requirements. -/
def progresoDocumentos (requisitos : List Requisito) : Nat :=
  if requisitos.isEmpty then 0
  else porcentajeFloat (requisitos.countP fun r => r.estado = .revisado)
    requisitos.length

/-- Modelled from the spec: `TipoVisa.existe` is not among the sources
(only its callers are); per §4.3 the lookup fails when the visa-type code
is "inactive or absent", so existence means an active row with that code. -/
def existeTipoVisa (db : DB) (codigo : String) : Bool :=
  db.tiposVisa.any fun t => t.codigo == codigo && t.activo

/-- Modelled from the spec: `RequisitoVisa.obtener_requisitos_por_visa` is
not among the sources; per §4.3 the catalog resolves a visa-type code to
its ordered list of requirement codes, read-only configuration held in
`DB.requisitosPorVisa`. -/
def requisitosConfigurados (db : DB) (tipoVisa : String) : List String :=
  match db.requisitosPorVisa.find? (fun p => p.1 == tipoVisa) with
  | none => []
  | some p => p.2

/-- Source `obtener_requisitos_por_visa` (services/requisitos.py): unknown or
inactive visa types and empty catalogs are rejected. -/
def obtenerRequisitosPorVisa (db : DB) (tipoVisa : String) : Except Err (List String) :=
  if !existeTipoVisa db tipoVisa then .error .tipoVisaNoValido
  else
    let requisitos := requisitosConfigurados db tipoVisa
    if requisitos.isEmpty then .error .sinRequisitosConfigurados
    else .ok requisitos

/-- The four temporal slot-allocation rules of `Cita.clean`, relative to a
clock reading: office-hours window, allowed weekday, date between today and
the look-ahead horizon, and a strictly future instant. -/
def reglasTemporales (t ahora : Instante) : Prop :=
  (HORA_INICIO_ATENCION ≤ horaDe t ∧ horaDe t < HORA_FIN_ATENCION) ∧
  diaSemana (fechaDe t) ∈ DIAS_LABORALES ∧
  fechaDe ahora ≤ fechaDe t ∧
  fechaDe t ≤ fechaDe ahora + 7 * MAXIMO_SEMANAS_ANTICIPACION ∧
  ahora < t

instance (t ahora : Instante) : Decidable (reglasTemporales t ahora) := by
  unfold reglasTemporales; infer_instance

/-- An empty database. -/
def dbVacia : DB := ⟨[], [], [], [], [], [], [], []⟩

def agenteAna : Agente := ⟨1, "Ana", true⟩

/-- One active agent, no appointments. -/
def dbConAgente : DB := { dbVacia with agentes := [agenteAna] }

/-- A requested appointment on a Sunday (day 6) at 09:00. -/
def citaDomingo : Cita := ⟨1, 1, 1, 9180, 0, .pendiente⟩

/-- The appointment Monday (day 0) 09:00–10:00 that booking in
`dbConAgente` creates. -/
def citaLunes : Cita := ⟨1, 1, 1, 540, 600, .pendiente⟩

def dbTrasAgendar : DB := { dbConAgente with citas := [citaLunes] }

/-- Database where applicant 1 already holds a pending appointment. -/
def dbConCitaPendiente : DB := { dbConAgente with citas := [citaLunes] }

def agenteSoloA : Agente := ⟨1, "A", true⟩

def agenteSoloB : Agente := ⟨2, "B", true⟩

/-- Appointment of applicant 1 with agent B on day 5 (Saturday) 09:00. -/
def citaConB : Cita := ⟨1, 1, 2, 7740, 7800, .pendiente⟩

def dbDosAgentes : DB :=
  { dbVacia with agentes := [agenteSoloA, agenteSoloB], citas := [citaConB] }

/-- Result of reprogramming `citaConB` to day 7 (Monday) 09:00: the
allocator hands the slot to agent A although agent B stays available. -/
def citaReprogramada : Cita := ⟨1, 1, 1, 10620, 10680, .pendiente⟩

def dbTrasReprogramar : DB := { dbDosAgentes with citas := [citaReprogramada] }

def citaCancelada : Cita := ⟨1, 1, 1, 540, 600, .cancelada⟩

/-- Pending appointment of applicant 1 on day 5 (Saturday) 09:00. -/
def citaLejana : Cita := ⟨1, 1, 1, 7740, 7800, .pendiente⟩

def dbCitaLejana : DB := { dbConAgente with citas := [citaLejana] }

def citaLejanaExitosa : Cita := ⟨1, 1, 1, 7740, 7800, .exitosa⟩

def dbCitaLejanaExitosa : DB := { dbConAgente with citas := [citaLejanaExitosa] }

def requisitoRevisadoFx : Requisito := ⟨1, 1, "ci", .revisado, false, ""⟩

def requisitoFaltanteFx2 : Requisito := ⟨2, 1, "pasaporte", .faltante, true, ""⟩

def requisitoFaltanteFx3 : Requisito := ⟨3, 1, "foto", .faltante, true, ""⟩

/-- Three requirements, one reviewed: the stored progress is 33 while the
exact percentage is 100/3. -/
def tresRequisitos : List Requisito :=
  [requisitoRevisadoFx, requisitoFaltanteFx2, requisitoFaltanteFx3]

/-- One hundred requirements of which 29 are reviewed: the float product
`(29 / 100) * 100` is 28.999999999999996, so the stored progress is 28. -/
def cienRequisitos : List Requisito :=
  List.replicate 29 requisitoRevisadoFx ++ List.replicate 71 requisitoFaltanteFx2

def tipoVisaTrabajoFx : TipoVisa := ⟨"trabajo", "Trabajo", true⟩

/-- Catalog fixture: one active visa type with two configured
requirements. -/
def dbCatalogo : DB :=
  { dbVacia with
    tiposVisa := [tipoVisaTrabajoFx]
    requisitosPorVisa := [("trabajo", ["ci", "oferta laboral"])] }

/-- Implicit invariant of the requirement/document state machine: a
requirement with at least one version carries the state of its
highest-numbered version. -/
def invarianteEstadoRequisito (db : DB) : Prop :=
  ∀ r ∈ db.requisitos, ∀ d, docActual (documentosDe db r.id) = some d →
    r.estado = d.estado

def solFx : Solicitante := ⟨1, "Juan Perez", "0102030405", "trabajo"⟩

def dbParaSubir : DB := { dbVacia with solicitantes := [solFx] }

def requisitoCiPendiente : Requisito := ⟨1, 1, "ci", .pendiente, false, ""⟩

def docCiV1 : Documento := ⟨1, 1, 1, .pendiente, "pasaporte.pdf"⟩

def carpetaJuan : Carpeta := ⟨1, 1, .pendiente, ""⟩

/-- State right after the first upload of `pasaporte.pdf` for requirement
`ci`. -/
def dbTrasSubida : DB :=
  { dbVacia with
    solicitantes := [solFx]
    requisitos := [requisitoCiPendiente]
    documentos := [docCiV1]
    carpetas := [carpetaJuan] }

/-- State after the single pending document is approved: requirement and
version reviewed, folder `aprobado`. -/
def dbConCarpetaAprobada : DB :=
  { dbVacia with
    solicitantes := [solFx]
    requisitos := [⟨1, 1, "ci", .revisado, false, ""⟩]
    documentos := [⟨1, 1, 1, .revisado, "pasaporte.pdf"⟩]
    carpetas := [⟨1, 1, .aprobado, ""⟩] }

/-! ## Theorems -/

theorem seqE_ok {α : Type} (a : Except Err Unit) (b : Except Err α) (x : α) :
    seqE a b = .ok x ↔ a = .ok () ∧ b = .ok x := by
  unfold seqE
  cases a with
  | error e => simp
  | ok u => cases u; simp

theorem seqE_err_left {α : Type} (b : Except Err α) (e : Err) :
    seqE (.error e) b = .error e := rfl

theorem seqE_ok_left {α : Type} (b : Except Err α) :
    seqE (.ok ()) b = b := rfl

theorem validarHorarioAtencion_ok (t : Instante) :
    validarHorarioAtencion t = .ok () ↔
      HORA_INICIO_ATENCION ≤ horaDe t ∧ horaDe t < HORA_FIN_ATENCION := by
  unfold validarHorarioAtencion
  split <;> simp_all

theorem validarHorarioAtencion_err (t : Instante)
    (h : ¬(HORA_INICIO_ATENCION ≤ horaDe t ∧ horaDe t < HORA_FIN_ATENCION)) :
    validarHorarioAtencion t = .error .horarioAtencion := by
  unfold validarHorarioAtencion
  split <;> simp_all

theorem validarDiaLaboral_ok (f : Nat) :
    validarDiaLaboral f = .ok () ↔ diaSemana f ∈ DIAS_LABORALES := by
  unfold validarDiaLaboral
  split <;> simp_all

theorem validarDiaLaboral_err (f : Nat) (h : diaSemana f ∉ DIAS_LABORALES) :
    validarDiaLaboral f = .error .diaLaboral := by
  unfold validarDiaLaboral
  split <;> simp_all

theorem validarRangoFechas_ok (fc : Nat) (ahora : Instante) :
    validarRangoFechas fc ahora = .ok () ↔
      fechaDe ahora ≤ fc ∧ fc ≤ fechaDe ahora + 7 * MAXIMO_SEMANAS_ANTICIPACION := by
  unfold validarRangoFechas
  simp only []
  split <;> [skip; split] <;> simp_all

theorem validarRangoFechas_err_pasada (fc : Nat) (ahora : Instante)
    (h : fc < fechaDe ahora) :
    validarRangoFechas fc ahora = .error .fechaPasada := by
  unfold validarRangoFechas
  simp only []
  split <;> simp_all

theorem validarRangoFechas_err_lejana (fc : Nat) (ahora : Instante)
    (h : fc > fechaDe ahora + 7 * MAXIMO_SEMANAS_ANTICIPACION) :
    validarRangoFechas fc ahora = .error .fechaMuyLejana := by
  unfold validarRangoFechas
  simp only []
  split
  · omega
  · rfl

theorem validarHoraNoPasada_ok (t ahora : Instante) :
    validarHoraNoPasada t ahora = .ok () ↔ ahora < t := by
  unfold validarHoraNoPasada
  split <;> simp_all

theorem validarHoraNoPasada_err (t ahora : Instante) (h : t ≤ ahora) :
    validarHoraNoPasada t ahora = .error .horaPasada := by
  unfold validarHoraNoPasada
  split <;> simp_all

theorem clean_ok_iff (db : DB) (c : Cita) (esNueva : Bool) (ahora : Instante) :
    Cita.clean db c esNueva ahora = .ok () ↔
      reglasTemporales c.inicioCita ahora ∧
        validarCitaPendienteExistente db c esNueva = .ok () := by
  unfold Cita.clean reglasTemporales
  rw [seqE_ok, seqE_ok, seqE_ok, seqE_ok]
  rw [validarHorarioAtencion_ok, validarDiaLaboral_ok, validarRangoFechas_ok,
    validarHoraNoPasada_ok]
  tauto

theorem cadenaLeAux_refl (x : List Char) : cadenaLeAux x x = true := by
  induction x with
  | nil => rfl
  | cons a as ih =>
    unfold cadenaLeAux
    simp [ih]

theorem cadenaLeAux_total (x y : List Char) (h : ¬ cadenaLeAux x y = true) :
    cadenaLeAux y x = true := by
  induction x generalizing y with
  | nil => simp [cadenaLeAux] at h
  | cons a as ih =>
    cases y with
    | nil => rfl
    | cons b bs =>
      unfold cadenaLeAux at h ⊢
      split at h
      · simp at h
      · split at h
        · have hab : b.toNat < a.toNat := by assumption
          simp [hab]
        · have h1 : ¬ a.toNat < b.toNat := by assumption
          have h2 : ¬ b.toNat < a.toNat := by assumption
          simp [h1, h2] at h ⊢
          exact ih bs (by simp [h])

theorem cadenaLeAux_trans (x y z : List Char) (h1 : cadenaLeAux x y = true)
    (h2 : cadenaLeAux y z = true) : cadenaLeAux x z = true := by
  induction x generalizing y z with
  | nil => rfl
  | cons a as ih =>
    cases y with
    | nil => simp [cadenaLeAux] at h1
    | cons b bs =>
      cases z with
      | nil => simp [cadenaLeAux] at h2
      | cons c cs =>
        unfold cadenaLeAux at h1 h2 ⊢
        split at h1
        · have hab : a.toNat < b.toNat := by assumption
          split at h2
          · have : a.toNat < c.toNat := by omega
            simp [this]
          · split at h2
            · simp at h2
            · have h3 : ¬ b.toNat < c.toNat := by assumption
              have h4 : ¬ c.toNat < b.toNat := by assumption
              have : a.toNat < c.toNat := by omega
              simp [this]
        · split at h1
          · simp at h1
          · have h3 : ¬ a.toNat < b.toNat := by assumption
            have h4 : ¬ b.toNat < a.toNat := by assumption
            split at h2
            · have : a.toNat < c.toNat := by omega
              simp [this]
            · split at h2
              · simp at h2
              · have h5 : ¬ b.toNat < c.toNat := by assumption
                have h6 : ¬ c.toNat < b.toNat := by assumption
                have g1 : ¬ a.toNat < c.toNat := by omega
                have g2 : ¬ c.toNat < a.toNat := by omega
                simp [g1, g2]
                exact ih bs cs h1 h2

theorem cadenaLe_refl (a : String) : cadenaLe a a = true :=
  cadenaLeAux_refl _

theorem cadenaLe_total (a b : String) (h : ¬ cadenaLe a b = true) :
    cadenaLe b a = true :=
  cadenaLeAux_total _ _ h

theorem cadenaLe_trans (a b c : String) (h1 : cadenaLe a b = true)
    (h2 : cadenaLe b c = true) : cadenaLe a c = true :=
  cadenaLeAux_trans _ _ _ h1 h2

theorem clean_err_horario (db : DB) (c : Cita) (esNueva : Bool) (ahora : Instante)
    (h : ¬(HORA_INICIO_ATENCION ≤ horaDe c.inicioCita ∧
            horaDe c.inicioCita < HORA_FIN_ATENCION)) :
    Cita.clean db c esNueva ahora = .error .horarioAtencion := by
  unfold Cita.clean
  rw [validarHorarioAtencion_err _ h]
  rfl

theorem persistir_err (db : DB) (c : Cita) (esNueva : Bool) (ahora : Instante) (e : Err)
    (h : Cita.clean db c esNueva ahora = .error e) :
    Cita.persistir db c esNueva ahora = .error e := by
  unfold Cita.persistir
  rw [h]
  rfl

theorem save_eq_persistir (db : DB) (c : Cita) (esNueva : Bool) (ahora : Instante) :
    Cita.save db c esNueva ahora =
      Cita.persistir db { c with finCita := calcularFin c.inicioCita } esNueva ahora := rfl

theorem persistir_ok (db : DB) (c : Cita) (esNueva : Bool) (ahora : Instante)
    (c2 : Cita) (db2 : DB) (h : Cita.persistir db c esNueva ahora = .ok (c2, db2)) :
    Cita.clean db c esNueva ahora = .ok () ∧
      Cita.validateUnique db c = .ok () ∧ c2 = c ∧
      db2.citas = (if esNueva then db.citas ++ [c]
                   else db.citas.map fun o => if o.id == c.id then c else o) := by
  unfold Cita.persistir at h
  rw [seqE_ok] at h
  obtain ⟨h1, h2⟩ := h
  rw [seqE_ok] at h2
  obtain ⟨h2, h3⟩ := h2
  cases esNueva <;>
    simp only [Bool.false_eq_true, if_true, if_false, Except.ok.injEq,
      Prod.mk.injEq] at h3 <;>
    obtain ⟨hc, hdb⟩ := h3 <;>
    subst hdb <;>
    exact ⟨h1, h2, hc.symm, by simp⟩

/-- C1: an appointment can only be saved when its start instant lies on an
allowed weekday (Monday–Saturday), in the 08:00–12:00 office-hours window,
strictly in the future and no more than two weeks after today; a violated
rule aborts the save with the `ValidationError` naming that rule, and a
failed save persists nothing (`Cita.save` only returns a database in the
`ok` case). -/
theorem c1_guardar_cita_reglas (db : DB) (c : Cita) (esNueva : Bool) (ahora : Instante) :
    (∀ c2 db2, Cita.save db c esNueva ahora = .ok (c2, db2) →
        reglasTemporales c2.inicioCita ahora ∧ c2.inicioCita = c.inicioCita ∧
          c2.estado = c.estado) ∧
    (¬(HORA_INICIO_ATENCION ≤ horaDe c.inicioCita ∧
        horaDe c.inicioCita < HORA_FIN_ATENCION) →
      Cita.save db c esNueva ahora = .error .horarioAtencion) ∧
    ((HORA_INICIO_ATENCION ≤ horaDe c.inicioCita ∧
        horaDe c.inicioCita < HORA_FIN_ATENCION) →
      diaSemana (fechaDe c.inicioCita) ∉ DIAS_LABORALES →
      Cita.save db c esNueva ahora = .error .diaLaboral) ∧
    ((HORA_INICIO_ATENCION ≤ horaDe c.inicioCita ∧
        horaDe c.inicioCita < HORA_FIN_ATENCION) →
      diaSemana (fechaDe c.inicioCita) ∈ DIAS_LABORALES →
      fechaDe c.inicioCita < fechaDe ahora →
      Cita.save db c esNueva ahora = .error .fechaPasada) ∧
    ((HORA_INICIO_ATENCION ≤ horaDe c.inicioCita ∧
        horaDe c.inicioCita < HORA_FIN_ATENCION) →
      diaSemana (fechaDe c.inicioCita) ∈ DIAS_LABORALES →
      fechaDe c.inicioCita > fechaDe ahora + 7 * MAXIMO_SEMANAS_ANTICIPACION →
      Cita.save db c esNueva ahora = .error .fechaMuyLejana) ∧
    ((HORA_INICIO_ATENCION ≤ horaDe c.inicioCita ∧
        horaDe c.inicioCita < HORA_FIN_ATENCION) →
      diaSemana (fechaDe c.inicioCita) ∈ DIAS_LABORALES →
      fechaDe ahora ≤ fechaDe c.inicioCita →
      fechaDe c.inicioCita ≤ fechaDe ahora + 7 * MAXIMO_SEMANAS_ANTICIPACION →
      c.inicioCita ≤ ahora →
      Cita.save db c esNueva ahora = .error .horaPasada) := by
  rw [save_eq_persistir]
  refine ⟨?_, ?_, ?_, ?_, ?_, ?_⟩
  · intro c2 db2 h
    obtain ⟨h1, _, h3, _⟩ := persistir_ok _ _ _ _ _ _ h
    rw [clean_ok_iff] at h1
    subst h3
    exact ⟨h1.1, rfl, rfl⟩
  · intro h
    exact persistir_err _ _ _ _ _ (clean_err_horario _ _ _ _ h)
  · intro h1 h2
    refine persistir_err _ _ _ _ _ ?_
    unfold Cita.clean
    rw [show validarHorarioAtencion c.inicioCita = .ok () from
          (validarHorarioAtencion_ok _).mpr h1,
        seqE_ok_left, validarDiaLaboral_err _ h2]
    rfl
  · intro h1 h2 h3
    refine persistir_err _ _ _ _ _ ?_
    unfold Cita.clean
    rw [show validarHorarioAtencion c.inicioCita = .ok () from
          (validarHorarioAtencion_ok _).mpr h1,
        seqE_ok_left,
        show validarDiaLaboral (fechaDe c.inicioCita) = .ok () from
          (validarDiaLaboral_ok _).mpr h2,
        seqE_ok_left, validarRangoFechas_err_pasada _ _ h3]
    rfl
  · intro h1 h2 h3
    refine persistir_err _ _ _ _ _ ?_
    unfold Cita.clean
    rw [show validarHorarioAtencion c.inicioCita = .ok () from
          (validarHorarioAtencion_ok _).mpr h1,
        seqE_ok_left,
        show validarDiaLaboral (fechaDe c.inicioCita) = .ok () from
          (validarDiaLaboral_ok _).mpr h2,
        seqE_ok_left, validarRangoFechas_err_lejana _ _ h3]
    rfl
  · intro h1 h2 h3 h4 h5
    refine persistir_err _ _ _ _ _ ?_
    unfold Cita.clean
    rw [show validarHorarioAtencion c.inicioCita = .ok () from
          (validarHorarioAtencion_ok _).mpr h1,
        seqE_ok_left,
        show validarDiaLaboral (fechaDe c.inicioCita) = .ok () from
          (validarDiaLaboral_ok _).mpr h2,
        seqE_ok_left,
        show validarRangoFechas (fechaDe c.inicioCita) ahora = .ok () from
          (validarRangoFechas_ok _ _).mpr ⟨h3, h4⟩,
        seqE_ok_left, validarHoraNoPasada_err _ _ h5]
    rfl

theorem minPorNombre_eq_none (l : List Agente) : minPorNombre l = none ↔ l = [] := by
  cases l with
  | nil => simp [minPorNombre]
  | cons x xs =>
    simp only [minPorNombre]
    cases hm : minPorNombre xs with
    | none => simp
    | some b =>
      dsimp only
      rw [iff_false_intro (List.cons_ne_nil x xs)]
      split <;> simp

theorem minPorNombre_mem (l : List Agente) (a : Agente) (h : minPorNombre l = some a) :
    a ∈ l := by
  induction l generalizing a with
  | nil => simp [minPorNombre] at h
  | cons x xs ih =>
    unfold minPorNombre at h
    cases hm : minPorNombre xs with
    | none => rw [hm] at h; simp_all
    | some b =>
      rw [hm] at h
      dsimp only at h
      split at h
      · simp_all
      · simp only [Option.some.injEq] at h
        exact List.mem_cons_of_mem _ (h ▸ ih b hm)

theorem minPorNombre_le (l : List Agente) (a : Agente) (h : minPorNombre l = some a) :
    ∀ b ∈ l, cadenaLe a.nombre b.nombre = true := by
  induction l generalizing a with
  | nil => simp [minPorNombre] at h
  | cons x xs ih =>
    unfold minPorNombre at h
    intro b hb
    cases hm : minPorNombre xs with
    | none =>
      rw [hm] at h
      dsimp only at h
      have hxs : xs = [] := (minPorNombre_eq_none xs).mp hm
      subst hxs
      simp only [Option.some.injEq] at h
      subst h
      simp at hb
      subst hb
      exact cadenaLe_refl _
    | some m =>
      rw [hm] at h
      dsimp only at h
      rcases List.mem_cons.mp hb with hbx | hbxs
      · subst hbx
        split at h <;> simp only [Option.some.injEq] at h <;> subst h
        · exact cadenaLe_refl _
        · exact cadenaLe_total _ _ (by assumption)
      · split at h <;> simp only [Option.some.injEq] at h <;> subst h
        · exact cadenaLe_trans _ _ _ (by assumption) (ih m hm b hbxs)
        · exact ih m hm b hbxs

theorem buscarAgenteDisponible_some (db : DB) (t : Instante) (a : Agente)
    (h : buscarAgenteDisponible db t = some a) :
    a ∈ db.agentes ∧ agenteDisponible db a t = true ∧
      ∀ b ∈ db.agentes, agenteDisponible db b t = true →
        cadenaLe a.nombre b.nombre = true := by
  unfold buscarAgenteDisponible at h
  have hmem := minPorNombre_mem _ _ h
  rw [List.mem_filter] at hmem
  refine ⟨hmem.1, hmem.2, ?_⟩
  intro b hb hdisp
  exact minPorNombre_le _ _ h b (List.mem_filter.mpr ⟨hb, hdisp⟩)

theorem buscarAgenteDisponible_none (db : DB) (t : Instante) :
    buscarAgenteDisponible db t = none ↔
      ∀ a ∈ db.agentes, agenteDisponible db a t = false := by
  unfold buscarAgenteDisponible
  rw [minPorNombre_eq_none, List.filter_eq_nil_iff]
  simp

/-- C2: an applicant who already has a pending appointment cannot get a
second one — `agendar_cita` fails with the duplicate-appointment
`ValidationError` and, failing, persists nothing (no database is returned);
a successful booking appends exactly one appointment, keeps every existing
row unchanged, and preserves the at-most-one-pending-per-applicant
invariant. -/
theorem c2_sin_cita_pendiente_duplicada (db : DB) (s : SolicitudAgendamiento)
    (ahora : Instante) :
    (tieneCitaPendiente db s.solicitanteId = true →
      agendarCita db s ahora = .error .citaPendienteExistente) ∧
    (∀ c db2, agendarCita db s ahora = .ok (c, db2) →
      tieneCitaPendiente db s.solicitanteId = false ∧
      c.solicitanteId = s.solicitanteId ∧
      db2.citas = db.citas ++ [c] ∧
      ∀ solId,
        (db.citas.countP fun x => x.solicitanteId == solId && x.estado == .pendiente) ≤ 1 →
        (db2.citas.countP fun x => x.solicitanteId == solId && x.estado == .pendiente) ≤ 1) := by
  constructor
  · intro h
    unfold agendarCita validarSolicitanteSinCitaPendiente
    rw [h]
    rfl
  · intro c db2 h
    unfold agendarCita at h
    cases htp : tieneCitaPendiente db s.solicitanteId with
    | true =>
      unfold validarSolicitanteSinCitaPendiente at h
      rw [htp] at h
      simp [seqE] at h
    | false =>
      have hok : validarSolicitanteSinCitaPendiente db s.solicitanteId = .ok () := by
        unfold validarSolicitanteSinCitaPendiente
        rw [htp]
        rfl
      rw [hok, seqE_ok_left] at h
      cases hb : buscarAgenteDisponible db s.inicioCita with
      | none => rw [hb] at h; simp at h
      | some ag =>
        rw [hb] at h
        dsimp only at h
        rw [save_eq_persistir] at h
        obtain ⟨_, _, hc, hdb⟩ := persistir_ok _ _ _ _ _ _ h
        simp only [if_true] at hdb
        subst hc
        refine ⟨rfl, rfl, hdb, ?_⟩
        intro solId hcount
        rw [hdb, List.countP_append]
        by_cases hSol : s.solicitanteId = solId
        · subst hSol
          have h0 : (db.citas.countP fun x =>
              x.solicitanteId == s.solicitanteId && x.estado == EstadoCita.pendiente) = 0 := by
            rw [List.countP_eq_zero]
            intro x hx
            unfold tieneCitaPendiente at htp
            have := List.any_eq_false.mp htp x hx
            simpa using this
          rw [h0]
          rw [List.countP_cons, List.countP_nil]
          split <;> omega
        · have h1 : (List.countP
              (fun (x : Cita) => x.solicitanteId == solId && x.estado == EstadoCita.pendiente)
              [{ id := nextCitaId db, solicitanteId := s.solicitanteId,
                 agenteId := ag.id, inicioCita := s.inicioCita,
                 finCita := calcularFin s.inicioCita, estado := .pendiente }]) = 0 := by
            rw [List.countP_cons, List.countP_nil]
            simp [hSol]
          rw [h1]
          omega

/-- C3: `agendar_cita` selects, among the active agents, the one of least
name that has no pending appointment starting exactly at the requested
start; it fails with the no-agent-available `ValidationError` when no agent
qualifies, and on success creates a pending appointment ending exactly one
hour after its start, appended to the stored appointments. -/
theorem c3_agendar_selecciona_primer_agente (db : DB) (s : SolicitudAgendamiento)
    (ahora : Instante) :
    (tieneCitaPendiente db s.solicitanteId = false →
      buscarAgenteDisponible db s.inicioCita = none →
        agendarCita db s ahora = .error .sinAgentesDisponibles) ∧
    (∀ c db2, agendarCita db s ahora = .ok (c, db2) →
      ∃ ag, buscarAgenteDisponible db s.inicioCita = some ag ∧
        ag ∈ db.agentes ∧ agenteDisponible db ag s.inicioCita = true ∧
        (∀ b ∈ db.agentes, agenteDisponible db b s.inicioCita = true →
          cadenaLe ag.nombre b.nombre = true) ∧
        c.agenteId = ag.id ∧ c.solicitanteId = s.solicitanteId ∧
        c.estado = .pendiente ∧ c.inicioCita = s.inicioCita ∧
        c.finCita = s.inicioCita + 60 ∧
        db2.citas = db.citas ++ [c]) := by
  constructor
  · intro htp hb
    unfold agendarCita
    rw [show validarSolicitanteSinCitaPendiente db s.solicitanteId = .ok () by
          unfold validarSolicitanteSinCitaPendiente; rw [htp]; rfl,
        seqE_ok_left, hb]
  · intro c db2 h
    unfold agendarCita at h
    cases htp : tieneCitaPendiente db s.solicitanteId with
    | true =>
      unfold validarSolicitanteSinCitaPendiente at h
      rw [htp] at h
      simp [seqE] at h
    | false =>
      rw [show validarSolicitanteSinCitaPendiente db s.solicitanteId = .ok () by
            unfold validarSolicitanteSinCitaPendiente; rw [htp]; rfl,
          seqE_ok_left] at h
      cases hb : buscarAgenteDisponible db s.inicioCita with
      | none => rw [hb] at h; simp at h
      | some ag =>
        rw [hb] at h
        dsimp only at h
        rw [save_eq_persistir] at h
        obtain ⟨_, _, hc, hdb⟩ := persistir_ok _ _ _ _ _ _ h
        simp only [if_true] at hdb
        subst hc
        obtain ⟨hmem, hdisp, hmin⟩ := buscarAgenteDisponible_some _ _ _ hb
        exact ⟨ag, rfl, hmem, hdisp, hmin, rfl, rfl, rfl, rfl,
          by simp [calcularFin, DURACION_CITA_HORAS], hdb⟩

theorem c1_guardar_cita_reglas_witness :
    Cita.save dbVacia citaDomingo true 480 = .error .diaLaboral :=
  (c1_guardar_cita_reglas dbVacia citaDomingo true 480).2.2.1 (by decide) (by decide)

theorem c2_sin_cita_pendiente_duplicada_witness :
    agendarCita dbConCitaPendiente ⟨1, 540⟩ 480 = .error .citaPendienteExistente :=
  (c2_sin_cita_pendiente_duplicada dbConCitaPendiente ⟨1, 540⟩ 480).1 (by decide)

theorem c3_agendar_selecciona_primer_agente_witness :
    ∃ ag, buscarAgenteDisponible dbConAgente 540 = some ag ∧
      ag ∈ dbConAgente.agentes ∧ agenteDisponible dbConAgente ag 540 = true ∧
      (∀ b ∈ dbConAgente.agentes, agenteDisponible dbConAgente b 540 = true →
        cadenaLe ag.nombre b.nombre = true) ∧
      citaLunes.agenteId = ag.id ∧
      citaLunes.solicitanteId = (1 : Nat) ∧
      citaLunes.estado = .pendiente ∧ citaLunes.inicioCita = 540 ∧
      citaLunes.finCita = 540 + 60 ∧
      dbTrasAgendar.citas = dbConAgente.citas ++ [citaLunes] :=
  (c3_agendar_selecciona_primer_agente dbConAgente ⟨1, 540⟩ 480).2
    citaLunes dbTrasAgendar (by rfl)

theorem validarCitaPendienteEstado_ok (c : Cita) :
    validarCitaPendienteEstado c = .ok () ↔ c.estado = .pendiente := by
  unfold validarCitaPendienteEstado
  split <;> simp_all

theorem validarCitaPendienteEstado_err (c : Cita) (h : c.estado ≠ .pendiente) :
    validarCitaPendienteEstado c = .error .soloPendientesReprogramar := by
  unfold validarCitaPendienteEstado
  split <;> simp_all

theorem validarTiempoReprogramacion_ok (c : Cita) (ahora : Instante) :
    validarTiempoReprogramacion c ahora = .ok () ↔
      DIAS_MINIMOS_REPROGRAMACION ≤ calcularDiasRestantes c ahora := by
  unfold validarTiempoReprogramacion
  split <;> simp_all

theorem validarTiempoReprogramacion_err (c : Cita) (ahora : Instante)
    (h : calcularDiasRestantes c ahora < DIAS_MINIMOS_REPROGRAMACION) :
    validarTiempoReprogramacion c ahora = .error .tiempoReprogramacion := by
  unfold validarTiempoReprogramacion
  split <;> simp_all

/-- C6 (amended): reprogramming requires a pending appointment and at least
`DIAS_MINIMOS_REPROGRAMACION` days of lead, re-validates the new start
against every temporal slot-allocation rule, and on success mutates start,
end and agent in place keeping the pending status — the agent always being
the allocator's first-by-name available agent at the new start, not
necessarily the current one. -/
theorem c6_reprogramar_cita (db : DB) (c : Cita) (inicioNuevo ahora : Instante) :
    (c.estado ≠ .pendiente →
      reprogramarCita db c inicioNuevo ahora = .error .soloPendientesReprogramar) ∧
    (c.estado = .pendiente →
      calcularDiasRestantes c ahora < DIAS_MINIMOS_REPROGRAMACION →
      reprogramarCita db c inicioNuevo ahora = .error .tiempoReprogramacion) ∧
    (∀ c2 db2, reprogramarCita db c inicioNuevo ahora = .ok (c2, db2) →
      c.estado = .pendiente ∧
      DIAS_MINIMOS_REPROGRAMACION ≤ calcularDiasRestantes c ahora ∧
      reglasTemporales inicioNuevo ahora ∧
      c2.id = c.id ∧ c2.solicitanteId = c.solicitanteId ∧
      c2.estado = .pendiente ∧
      c2.inicioCita = inicioNuevo ∧ c2.finCita = inicioNuevo + 60 ∧
      (∃ ag, buscarAgenteDisponible db inicioNuevo = some ag ∧ c2.agenteId = ag.id) ∧
      db2.citas = db.citas.map fun o => if o.id == c.id then c2 else o) := by
  refine ⟨?_, ?_, ?_⟩
  · intro h
    unfold reprogramarCita
    rw [validarCitaPendienteEstado_err _ h]
    rfl
  · intro h1 h2
    unfold reprogramarCita
    rw [show validarCitaPendienteEstado c = .ok () from
          (validarCitaPendienteEstado_ok c).mpr h1,
        seqE_ok_left, validarTiempoReprogramacion_err _ _ h2]
    rfl
  · intro c2 db2 h
    unfold reprogramarCita at h
    cases hEst : validarCitaPendienteEstado c with
    | error e => rw [hEst] at h; simp [seqE] at h
    | ok u =>
      cases u
      rw [hEst, seqE_ok_left] at h
      cases hT : validarTiempoReprogramacion c ahora with
      | error e => rw [hT] at h; simp [seqE] at h
      | ok u =>
        cases u
        rw [hT, seqE_ok_left] at h
        cases hb : buscarAgenteDisponible db inicioNuevo with
        | none => rw [hb] at h; simp at h
        | some ag =>
          rw [hb] at h
          dsimp only at h
          rw [save_eq_persistir] at h
          obtain ⟨hclean, _, hc, hdb⟩ := persistir_ok _ _ _ _ _ _ h
          simp only [Bool.false_eq_true, if_false] at hdb
          subst hc
          rw [clean_ok_iff] at hclean
          exact ⟨(validarCitaPendienteEstado_ok c).mp hEst,
            (validarTiempoReprogramacion_ok c ahora).mp hT,
            hclean.1, rfl, rfl, (validarCitaPendienteEstado_ok c).mp hEst ▸ rfl,
            rfl, by simp [calcularFin, DURACION_CITA_HORAS],
            ⟨ag, rfl, rfl⟩, hdb⟩

theorem c6_reprogramar_cita_counterexample :
    agenteDisponible dbDosAgentes agenteSoloB 10620 = true ∧
    citaConB.agenteId = agenteSoloB.id ∧
    reprogramarCita dbDosAgentes citaConB 10620 480 =
      .ok (citaReprogramada, dbTrasReprogramar) ∧
    citaReprogramada.agenteId ≠ agenteSoloB.id :=
  ⟨by decide, by decide, by rfl, by decide⟩

theorem c6_reprogramar_cita_witness :
    reprogramarCita dbVacia citaCancelada 540 480 = .error .soloPendientesReprogramar :=
  (c6_reprogramar_cita dbVacia citaCancelada 540 480).1 (by decide)

/-- C7 (amended): `marcar_como_exitosa` requires only a pending status (no
check that the appointment's date is today), updates solely the `estado`
field bypassing the creation-time validation suite, and otherwise fails
with the pending-only `ValidationError`. -/
theorem c7_marcar_como_exitosa (db : DB) (c : Cita) :
    (c.estado ≠ .pendiente →
      marcarComoExitosa db c = .error .soloPendientesExitosa) ∧
    (c.estado = .pendiente →
      marcarComoExitosa db c = .ok ({ c with estado := .exitosa },
        { db with citas := db.citas.map fun o =>
            if o.id == c.id then { c with estado := .exitosa } else o })) ∧
    (∀ c2 db2, marcarComoExitosa db c = .ok (c2, db2) →
      c2.id = c.id ∧ c2.solicitanteId = c.solicitanteId ∧
      c2.agenteId = c.agenteId ∧ c2.inicioCita = c.inicioCita ∧
      c2.finCita = c.finCita ∧ c2.estado = .exitosa) := by
  refine ⟨?_, ?_, ?_⟩
  · intro h
    unfold marcarComoExitosa
    split <;> simp_all
  · intro h
    unfold marcarComoExitosa
    split <;> simp_all
  · intro c2 db2 h
    unfold marcarComoExitosa at h
    split at h
    · simp at h
    · simp only [Except.ok.injEq, Prod.mk.injEq] at h
      obtain ⟨hc, _⟩ := h
      subst hc
      exact ⟨rfl, rfl, rfl, rfl, rfl, rfl⟩

theorem c7_marcar_como_exitosa_counterexample :
    esFechaCitaHoy citaLejana 480 = false ∧
    marcarCitaExitosa dbCitaLejana 1 = .ok (citaLejanaExitosa, dbCitaLejanaExitosa) :=
  ⟨by decide, by rfl⟩

theorem c7_marcar_como_exitosa_witness :
    marcarComoExitosa dbCitaLejana citaLejana = .ok (citaLejanaExitosa,
      { dbCitaLejana with citas := dbCitaLejana.citas.map fun o =>
          if o.id == citaLejana.id then citaLejanaExitosa else o }) :=
  (c7_marcar_como_exitosa dbCitaLejana citaLejana).2.1 (by decide)

theorem log2Fuel_spec (fuel : Nat) : ∀ n : Nat, 1 ≤ n → n ≤ fuel →
    2 ^ log2Fuel fuel n ≤ n ∧ n < 2 ^ (log2Fuel fuel n + 1) := by
  induction fuel with
  | zero => intro n h1 h2; omega
  | succ f ih =>
    intro n h1 h2
    rw [log2Fuel]
    by_cases hn : 2 ≤ n
    · rw [if_pos hn]
      have hrec := ih (n / 2) (by omega) (by omega)
      rw [pow_succ] at hrec ⊢
      rw [pow_succ]
      omega
    · rw [if_neg hn]
      simp only [pow_zero, zero_add, pow_one]
      omega

theorem log2N_spec (n : Nat) (h1 : 1 ≤ n) :
    2 ^ log2N n ≤ n ∧ n < 2 ^ (log2N n + 1) :=
  log2Fuel_spec n n h1 le_rfl

theorem floor_div_nat (a b : Nat) : ⌊(a : ℚ) / (b : ℚ)⌋ = ((a / b : Nat) : Int) := by
  rcases Nat.eq_zero_or_pos b with hb | hb
  · subst hb; simp
  · have hbQ : (0 : ℚ) < (b : ℚ) := by exact_mod_cast hb
    rw [Int.floor_eq_iff]
    constructor
    · rw [le_div_iff₀ hbQ]
      have h := Nat.div_mul_le_self a b
      push_cast
      exact_mod_cast Nat.cast_le.mpr h
    · rw [div_lt_iff₀ hbQ]
      have h1 := Nat.div_add_mod a b
      have h2 := Nat.mod_lt a hb
      have hlt : a < (a / b + 1) * b := by
        calc a = b * (a / b) + a % b := h1.symm
          _ < (a / b + 1) * b := by rw [Nat.add_mul, one_mul, Nat.mul_comm]; omega
      exact_mod_cast hlt

theorem neDiv_spec (pn qn : Nat) (hq : 1 ≤ qn) :
    (-(1/2 : ℚ) < (neDiv pn qn : ℚ) - (pn : ℚ) / qn ∧
      (neDiv pn qn : ℚ) - (pn : ℚ) / qn < 1/2) ∨
    (((neDiv pn qn : ℚ) - (pn : ℚ) / qn = 1/2 ∨
        (neDiv pn qn : ℚ) - (pn : ℚ) / qn = -(1/2 : ℚ)) ∧ 2 ∣ neDiv pn qn) := by
  have hqQ : (0 : ℚ) < (qn : ℚ) := by exact_mod_cast hq
  have hmod := Nat.div_add_mod pn qn
  have hrlt : pn % qn < qn := Nat.mod_lt pn hq
  have hpn : (pn : ℚ) = (qn : ℚ) * ((pn / qn : Nat) : ℚ) + ((pn % qn : Nat) : ℚ) := by
    exact_mod_cast hmod.symm
  have hval : (pn : ℚ) / qn = ((pn / qn : Nat) : ℚ) + ((pn % qn : Nat) : ℚ) / qn := by
    rw [hpn]; field_simp; ring
  have hr0 : (0 : ℚ) ≤ ((pn % qn : Nat) : ℚ) / qn :=
    div_nonneg (by positivity) (le_of_lt hqQ)
  have hr1 : ((pn % qn : Nat) : ℚ) / qn < 1 := by
    rw [div_lt_one hqQ]; exact_mod_cast hrlt
  unfold neDiv
  split_ifs with h1 h2 h3
  · left
    have hrh : ((pn % qn : Nat) : ℚ) / qn < 1/2 := by
      rw [div_lt_iff₀ hqQ]
      have : 2 * ((pn % qn : Nat) : ℚ) < qn := by exact_mod_cast h1
      linarith
    rw [hval]
    constructor <;> linarith
  · left
    have hrh : 1/2 < ((pn % qn : Nat) : ℚ) / qn := by
      rw [lt_div_iff₀ hqQ]
      have : (qn : ℚ) < 2 * ((pn % qn : Nat) : ℚ) := by exact_mod_cast h2
      linarith
    rw [hval]
    push_cast
    constructor <;> linarith
  · right
    have hrh : ((pn % qn : Nat) : ℚ) / qn = 1/2 := by
      rw [div_eq_iff (ne_of_gt hqQ)]
      have : 2 * (pn % qn) = qn := by omega
      have hQ : 2 * ((pn % qn : Nat) : ℚ) = qn := by exact_mod_cast this
      linarith
    refine ⟨Or.inr ?_, Nat.dvd_of_mod_eq_zero h3⟩
    rw [hval, hrh]; ring
  · right
    have hrh : ((pn % qn : Nat) : ℚ) / qn = 1/2 := by
      rw [div_eq_iff (ne_of_gt hqQ)]
      have : 2 * (pn % qn) = qn := by omega
      have hQ : 2 * ((pn % qn : Nat) : ℚ) = qn := by exact_mod_cast this
      linarith
    refine ⟨Or.inl ?_, by omega⟩
    rw [hval, hrh]
    push_cast
    ring

theorem pow_toNat_cast (g : Int) (hg : 0 ≤ g) :
    ((2 ^ g.toNat : Nat) : ℚ) = (2 : ℚ) ^ g := by
  rw [Nat.cast_pow, Nat.cast_ofNat, ← zpow_natCast, Int.toNat_of_nonneg hg]

theorem denEscalado_pos (p q : Nat) (hq : 1 ≤ q) : 1 ≤ denEscalado p q := by
  unfold denEscalado
  split
  · exact Nat.one_le_iff_ne_zero.mpr (Nat.mul_ne_zero (by omega) (Nat.pos_iff_ne_zero.mp (Nat.pos_pow_of_pos _ (by omega))))
  · exact hq

theorem valor_escalado (p q : Nat) (hq : 1 ≤ q) :
    (numEscalado p q : ℚ) / (denEscalado p q : ℚ) =
      ((p : ℚ) / q) / (2 : ℚ) ^ gridDe p q := by
  have hqQ : (0 : ℚ) < (q : ℚ) := by exact_mod_cast hq
  have h2g : (0 : ℚ) < (2 : ℚ) ^ gridDe p q := zpow_pos (by norm_num) _
  unfold numEscalado denEscalado
  by_cases hg : 0 ≤ gridDe p q
  · rw [if_pos hg, if_pos hg, Nat.cast_mul, pow_toNat_cast _ hg]
    rw [div_div]
  · rw [if_neg hg, if_neg hg, Nat.cast_mul]
    have hng : 0 ≤ -gridDe p q := by omega
    rw [pow_toNat_cast _ hng, zpow_neg]
    rw [div_eq_mul_inv, div_eq_mul_inv, div_eq_mul_inv]
    ring

theorem flQ_sub (p q : Nat) (hq : 1 ≤ q) :
    flQ p q - (p : ℚ) / q =
      ((neDiv (numEscalado p q) (denEscalado p q) : ℚ) -
        (numEscalado p q : ℚ) / (denEscalado p q : ℚ)) * (2 : ℚ) ^ gridDe p q := by
  have h2g : ((2 : ℚ) ^ gridDe p q) ≠ 0 := zpow_ne_zero _ (by norm_num)
  have hv := valor_escalado p q hq
  unfold flQ redondear
  rw [hv, sub_mul, div_mul_cancel₀ _ h2g]

theorem flQ_le_add (p q : Nat) (hq : 1 ≤ q) :
    flQ p q ≤ (p : ℚ) / q + (2 : ℚ) ^ (gridDe p q - 1) := by
  have h2g : (0 : ℚ) < (2 : ℚ) ^ gridDe p q := zpow_pos (by norm_num) _
  have hhalf : (2 : ℚ) ^ (gridDe p q - 1) = (1 / 2) * (2 : ℚ) ^ gridDe p q := by
    rw [zpow_sub₀ (by norm_num : (2:ℚ) ≠ 0), zpow_one]
    ring
  have hsub := flQ_sub p q hq
  have hspec := neDiv_spec (numEscalado p q) (denEscalado p q) (denEscalado_pos p q hq)
  have hle : (neDiv (numEscalado p q) (denEscalado p q) : ℚ) -
      (numEscalado p q : ℚ) / (denEscalado p q : ℚ) ≤ 1 / 2 := by
    rcases hspec with ⟨_, h⟩ | ⟨h, _⟩
    · linarith
    · rcases h with h | h <;> linarith
  have := mul_le_mul_of_nonneg_right hle (le_of_lt h2g)
  rw [hhalf]
  linarith [hsub ▸ this]

theorem flQ_ge_sub (p q : Nat) (hq : 1 ≤ q) :
    (p : ℚ) / q - (2 : ℚ) ^ (gridDe p q - 1) ≤ flQ p q := by
  have h2g : (0 : ℚ) < (2 : ℚ) ^ gridDe p q := zpow_pos (by norm_num) _
  have hhalf : (2 : ℚ) ^ (gridDe p q - 1) = (1 / 2) * (2 : ℚ) ^ gridDe p q := by
    rw [zpow_sub₀ (by norm_num : (2:ℚ) ≠ 0), zpow_one]
    ring
  have hsub := flQ_sub p q hq
  have hspec := neDiv_spec (numEscalado p q) (denEscalado p q) (denEscalado_pos p q hq)
  have hge : -(1 / 2 : ℚ) ≤ (neDiv (numEscalado p q) (denEscalado p q) : ℚ) -
      (numEscalado p q : ℚ) / (denEscalado p q : ℚ) := by
    rcases hspec with ⟨h, _⟩ | ⟨h, _⟩
    · linarith
    · rcases h with h | h <;> linarith
  have := mul_le_mul_of_nonneg_right hge (le_of_lt h2g)
  rw [hhalf]
  nlinarith [hsub ▸ this]

theorem flQ_tie_up (p q : Nat) (hq : 1 ≤ q)
    (h : flQ p q = (p : ℚ) / q + (2 : ℚ) ^ (gridDe p q - 1)) : 2 ∣ redondear p q := by
  have h2g : (0 : ℚ) < (2 : ℚ) ^ gridDe p q := zpow_pos (by norm_num) _
  have hhalf : (2 : ℚ) ^ (gridDe p q - 1) = (1 / 2) * (2 : ℚ) ^ gridDe p q := by
    rw [zpow_sub₀ (by norm_num : (2:ℚ) ≠ 0), zpow_one]
    ring
  have hsub := flQ_sub p q hq
  have hd : ((neDiv (numEscalado p q) (denEscalado p q) : ℚ) -
      (numEscalado p q : ℚ) / (denEscalado p q : ℚ)) * (2 : ℚ) ^ gridDe p q =
      (1 / 2) * (2 : ℚ) ^ gridDe p q := by
    rw [← hsub, ← hhalf]
    linarith [h]
  have hdq : (neDiv (numEscalado p q) (denEscalado p q) : ℚ) -
      (numEscalado p q : ℚ) / (denEscalado p q : ℚ) = 1 / 2 :=
    mul_right_cancel₀ (ne_of_gt h2g) hd
  have hspec := neDiv_spec (numEscalado p q) (denEscalado p q) (denEscalado_pos p q hq)
  unfold redondear
  rcases hspec with ⟨_, hlt⟩ | ⟨_, hdvd⟩
  · rw [hdq] at hlt
    norm_num at hlt
  · exact hdvd

theorem flQ_tie_dn (p q : Nat) (hq : 1 ≤ q)
    (h : flQ p q = (p : ℚ) / q - (2 : ℚ) ^ (gridDe p q - 1)) : 2 ∣ redondear p q := by
  have h2g : (0 : ℚ) < (2 : ℚ) ^ gridDe p q := zpow_pos (by norm_num) _
  have hhalf : (2 : ℚ) ^ (gridDe p q - 1) = (1 / 2) * (2 : ℚ) ^ gridDe p q := by
    rw [zpow_sub₀ (by norm_num : (2:ℚ) ≠ 0), zpow_one]
    ring
  have hsub := flQ_sub p q hq
  have hd : ((neDiv (numEscalado p q) (denEscalado p q) : ℚ) -
      (numEscalado p q : ℚ) / (denEscalado p q : ℚ)) * (2 : ℚ) ^ gridDe p q =
      (-(1 / 2)) * (2 : ℚ) ^ gridDe p q := by
    rw [← hsub]
    have : (-(1 / 2) : ℚ) * (2 : ℚ) ^ gridDe p q = -((1 / 2) * (2 : ℚ) ^ gridDe p q) := by ring
    rw [this, ← hhalf]
    linarith [h]
  have hdq : (neDiv (numEscalado p q) (denEscalado p q) : ℚ) -
      (numEscalado p q : ℚ) / (denEscalado p q : ℚ) = -(1 / 2) :=
    mul_right_cancel₀ (ne_of_gt h2g) hd
  have hspec := neDiv_spec (numEscalado p q) (denEscalado p q) (denEscalado_pos p q hq)
  unfold redondear
  rcases hspec with ⟨hgt, _⟩ | ⟨_, hdvd⟩
  · rw [hdq] at hgt
    norm_num at hgt
  · exact hdvd

theorem flQ_nonneg (p q : Nat) : 0 ≤ flQ p q := by
  unfold flQ
  have h2g : (0 : ℚ) < (2 : ℚ) ^ gridDe p q := zpow_pos (by norm_num) _
  positivity

theorem redondear_zero (q : Nat) (hq : 1 ≤ q) : redondear 0 q = 0 := by
  have hden := denEscalado_pos 0 q hq
  have hnum : numEscalado 0 q = 0 := by
    unfold numEscalado
    split <;> simp
  unfold redondear neDiv
  rw [hnum]
  rw [Nat.zero_mod, Nat.zero_div]
  rw [if_pos (by omega)]

theorem flQ_zero (q : Nat) (hq : 1 ≤ q) : flQ 0 q = 0 := by
  unfold flQ
  rw [redondear_zero q hq]
  simp

theorem nat_div_bounds (a b : Nat) :
    ((a / b : Nat) : ℚ) ≤ (a : ℚ) / b ∧ (a : ℚ) / b < ((a / b : Nat) : ℚ) + 1 := by
  have h := floor_div_nat a b
  constructor
  · have h1 := Int.floor_le ((a : ℚ) / b)
    rw [h] at h1
    exact_mod_cast h1
  · have h1 := Int.lt_floor_add_one ((a : ℚ) / b)
    rw [h] at h1
    exact_mod_cast h1

theorem expDe_spec (p q : Nat) (hp : 1 ≤ p) (hq : 1 ≤ q) :
    (2 : ℚ) ^ expDe p q ≤ (p : ℚ) / q ∧ (p : ℚ) / q < (2 : ℚ) ^ (expDe p q + 1) := by
  have hqQ : (0 : ℚ) < (q : ℚ) := by exact_mod_cast hq
  obtain ⟨s, hs⟩ : ∃ s : ℕ, log2N q + 53 = s := ⟨_, rfl⟩
  obtain ⟨N, hN⟩ : ∃ N : ℕ, p * 2 ^ s / q = N := ⟨_, rfl⟩
  have hE : expDe p q = (log2N N : ℤ) - (s : ℤ) := by
    unfold expDe
    rw [hs, hN]
    omega
  have hq2 := (log2N_spec q hq).2
  have hqs : q ≤ 2 ^ s := by
    rw [← hs]
    calc q ≤ 2 ^ (log2N q + 1) := le_of_lt hq2
      _ ≤ 2 ^ (log2N q + 53) := Nat.pow_le_pow_right (by omega) (by omega)
  have hps : q ≤ p * 2 ^ s := le_trans hqs (Nat.le_mul_of_pos_left _ hp)
  have hN1 : 1 ≤ N := by
    rw [← hN]
    exact (Nat.one_le_div_iff (by omega)).mpr hps
  have hL := log2N_spec N hN1
  have hdb := nat_div_bounds (p * 2 ^ s) q
  rw [hN] at hdb
  have hlow : (2 : ℚ) ^ log2N N * q ≤ (p : ℚ) * 2 ^ s := by
    have h1 : ((2 ^ log2N N : ℕ) : ℚ) ≤ (N : ℚ) := by exact_mod_cast hL.1
    have h3 : ((2 ^ log2N N : ℕ) : ℚ) ≤ ((p * 2 ^ s : ℕ) : ℚ) / q :=
      le_trans h1 hdb.1
    rw [le_div_iff₀ hqQ] at h3
    push_cast at h3
    exact h3
  have hhigh : (p : ℚ) * 2 ^ s < (2 : ℚ) ^ (log2N N + 1) * q := by
    have h4 : ((p * 2 ^ s : ℕ) : ℚ) / q < ((2 ^ (log2N N + 1) : ℕ) : ℚ) := by
      refine lt_of_lt_of_le hdb.2 ?_
      exact_mod_cast Nat.succ_le_of_lt hL.2
    rw [div_lt_iff₀ hqQ] at h4
    exact_mod_cast h4
  constructor
  · rw [hE, zpow_sub₀ (by norm_num : (2:ℚ) ≠ 0), zpow_natCast, zpow_natCast]
    rw [div_le_div_iff₀ (by positivity) hqQ]
    exact hlow
  · rw [hE]
    have hc : ((log2N N : ℤ) - s) + 1 = ((log2N N + 1 : ℕ) : ℤ) - (s : ℤ) := by
      push_cast
      ring
    rw [hc, zpow_sub₀ (by norm_num : (2:ℚ) ≠ 0), zpow_natCast, zpow_natCast]
    rw [div_lt_div_iff₀ hqQ (by positivity)]
    exact hhigh

theorem expDe_le (p q : Nat) (j : Int) (hp : 1 ≤ p) (hq : 1 ≤ q)
    (hv : (p : ℚ) / q < (2 : ℚ) ^ (j + 1)) : expDe p q ≤ j := by
  have h1 := (expDe_spec p q hp hq).1
  have h2 : (2 : ℚ) ^ expDe p q < (2 : ℚ) ^ (j + 1) := lt_of_le_of_lt h1 hv
  have h3 := (zpow_lt_zpow_iff_right₀ (by norm_num : (1:ℚ) < 2)).mp h2
  omega

theorem expDe_mono (p q pb qb : Nat) (hp : 1 ≤ p) (hq : 1 ≤ q)
    (hpb : 1 ≤ pb) (hqb : 1 ≤ qb)
    (hv : (p : ℚ) / q ≤ (pb : ℚ) / qb) : expDe p q ≤ expDe pb qb := by
  refine expDe_le p q (expDe pb qb) hp hq ?_
  exact lt_of_le_of_lt hv (expDe_spec pb qb hpb hqb).2

theorem gridDe_mono (p q pb qb : Nat) (hp : 1 ≤ p) (hq : 1 ≤ q)
    (hpb : 1 ≤ pb) (hqb : 1 ≤ qb)
    (hv : (p : ℚ) / q ≤ (pb : ℚ) / qb) : gridDe p q ≤ gridDe pb qb := by
  have := expDe_mono p q pb qb hp hq hpb hqb hv
  unfold gridDe
  omega

theorem gridDe_zero_le (q : Nat) : gridDe 0 q ≤ -105 := by
  have h0 : (0 * 2 ^ (log2N q + 53)) / q = 0 := by simp
  have hE : expDe 0 q = (log2N 0 : ℤ) - (log2N q + 53 : ℕ) := by
    unfold expDe
    rw [h0]
    push_cast
    omega
  have hL0 : log2N 0 = 0 := rfl
  rw [hL0] at hE
  unfold gridDe
  have : (0 : ℤ) ≤ (log2N q : ℤ) := by positivity
  push_cast at hE
  omega

theorem gridDe_lower (p q : Nat) : -1074 ≤ gridDe p q := le_max_right _ _

theorem redondear_le_pow (p q : Nat) (hp : 1 ≤ p) (hq : 1 ≤ q) :
    redondear p q ≤ 2 ^ 53 := by
  have hqQ : (0 : ℚ) < (q : ℚ) := by exact_mod_cast hq
  have h2g : (0 : ℚ) < (2 : ℚ) ^ gridDe p q := zpow_pos (by norm_num) _
  have hspec := neDiv_spec (numEscalado p q) (denEscalado p q) (denEscalado_pos p q hq)
  have hub : (redondear p q : ℚ) ≤
      (numEscalado p q : ℚ) / (denEscalado p q : ℚ) + 1 / 2 := by
    unfold redondear
    rcases hspec with ⟨_, h⟩ | ⟨h, _⟩
    · linarith
    · rcases h with h | h <;> linarith
  rw [valor_escalado p q hq] at hub
  have hvlt : (p : ℚ) / q < (2 : ℚ) ^ (expDe p q + 1) := (expDe_spec p q hp hq).2
  have hscale : ((p : ℚ) / q) / (2 : ℚ) ^ gridDe p q <
      (2 : ℚ) ^ (expDe p q + 1 - gridDe p q) := by
    rw [div_lt_iff₀ h2g, ← zpow_add₀ (by norm_num : (2:ℚ) ≠ 0)]
    have he : expDe p q + 1 - gridDe p q + gridDe p q = expDe p q + 1 := by ring
    rw [he]
    exact hvlt
  have hexp : (2 : ℚ) ^ (expDe p q + 1 - gridDe p q) ≤ (2 : ℚ) ^ (53 : ℤ) := by
    refine zpow_le_zpow_right₀ (by norm_num) ?_
    have := le_max_left (expDe p q - 52) (-1074 : ℤ)
    unfold gridDe
    omega
  have hlt : (redondear p q : ℚ) < (2 : ℚ) ^ (53 : ℤ) + 1 := by
    nlinarith
  have hcast : ((2 ^ 53 + 1 : ℕ) : ℚ) = (2 : ℚ) ^ (53 : ℤ) + 1 := by
    push_cast
    norm_num
  rw [← hcast] at hlt
  exact_mod_cast Nat.lt_succ_iff.mp (by exact_mod_cast hlt)

theorem redondear_ge_pow (p q : Nat) (hp : 1 ≤ p) (hq : 1 ≤ q)
    (hg : gridDe p q = expDe p q - 52) : 2 ^ 52 ≤ redondear p q := by
  have hqQ : (0 : ℚ) < (q : ℚ) := by exact_mod_cast hq
  have h2g : (0 : ℚ) < (2 : ℚ) ^ gridDe p q := zpow_pos (by norm_num) _
  have hspec := neDiv_spec (numEscalado p q) (denEscalado p q) (denEscalado_pos p q hq)
  have hlb : (numEscalado p q : ℚ) / (denEscalado p q : ℚ) - 1 / 2 ≤
      (redondear p q : ℚ) := by
    unfold redondear
    rcases hspec with ⟨h, _⟩ | ⟨h, _⟩
    · linarith
    · rcases h with h | h <;> linarith
  rw [valor_escalado p q hq] at hlb
  have hvge : (2 : ℚ) ^ expDe p q ≤ (p : ℚ) / q := (expDe_spec p q hp hq).1
  have hscale : (2 : ℚ) ^ (52 : ℤ) ≤ ((p : ℚ) / q) / (2 : ℚ) ^ gridDe p q := by
    rw [le_div_iff₀ h2g, ← zpow_add₀ (by norm_num : (2:ℚ) ≠ 0)]
    have he : (52 : ℤ) + gridDe p q = expDe p q := by omega
    rw [he]
    exact hvge
  have hgt : (2 : ℚ) ^ (52 : ℤ) - 1 < (redondear p q : ℚ) := by linarith
  have hcast : ((2 ^ 52 : ℕ) : ℚ) = (2 : ℚ) ^ (52 : ℤ) := by
    push_cast
    norm_num
  have : ((2 ^ 52 : ℕ) : ℚ) < (redondear p q : ℚ) + 1 := by
    rw [hcast]
    linarith
  exact_mod_cast Nat.lt_succ_iff.mp (by exact_mod_cast this)

theorem cast_pow_mul_zpow (n : ℕ) (g : ℤ) :
    ((2 ^ n : ℕ) : ℚ) * (2 : ℚ) ^ g = (2 : ℚ) ^ (g + n) := by
  rw [Nat.cast_pow, Nat.cast_ofNat, ← zpow_natCast (2 : ℚ) n,
    ← zpow_add₀ (by norm_num : (2:ℚ) ≠ 0)]
  congr 1
  omega

theorem flQ_le_bound (p q K : Nat) (k : Int) (hq : 1 ≤ q) (hgk : gridDe p q ≤ k)
    (hv : (p : ℚ) / q ≤ (K : ℚ) * (2 : ℚ) ^ k) : flQ p q ≤ (K : ℚ) * (2 : ℚ) ^ k := by
  have hqQ : (0 : ℚ) < (q : ℚ) := by exact_mod_cast hq
  have h2g : (0 : ℚ) < (2 : ℚ) ^ gridDe p q := zpow_pos (by norm_num) _
  have hspec := neDiv_spec (numEscalado p q) (denEscalado p q) (denEscalado_pos p q hq)
  have hub : (redondear p q : ℚ) ≤
      (numEscalado p q : ℚ) / (denEscalado p q : ℚ) + 1 / 2 := by
    unfold redondear
    rcases hspec with ⟨_, h⟩ | ⟨h, _⟩
    · linarith
    · rcases h with h | h <;> linarith
  rw [valor_escalado p q hq] at hub
  have hKg : ((p : ℚ) / q) / (2 : ℚ) ^ gridDe p q ≤
      (K : ℚ) * (2 : ℚ) ^ (k - gridDe p q) := by
    rw [div_le_iff₀ h2g, mul_assoc, ← zpow_add₀ (by norm_num : (2:ℚ) ≠ 0)]
    have he : k - gridDe p q + gridDe p q = k := by ring
    rw [he]
    exact hv
  have hkg0 : 0 ≤ k - gridDe p q := by omega
  have hnat : ((K * 2 ^ (k - gridDe p q).toNat : ℕ) : ℚ) =
      (K : ℚ) * (2 : ℚ) ^ (k - gridDe p q) := by
    push_cast
    rw [← zpow_natCast (2 : ℚ) (k - gridDe p q).toNat, Int.toNat_of_nonneg hkg0]
  have hmle : redondear p q ≤ K * 2 ^ (k - gridDe p q).toNat := by
    by_contra hcon
    push_neg at hcon
    have hone : ((K * 2 ^ (k - gridDe p q).toNat : ℕ) : ℚ) + 1 ≤ (redondear p q : ℚ) := by
      exact_mod_cast Nat.succ_le_of_lt hcon
    rw [hnat] at hone
    linarith
  have hfin : flQ p q ≤ ((K * 2 ^ (k - gridDe p q).toNat : ℕ) : ℚ) * (2 : ℚ) ^ gridDe p q := by
    unfold flQ
    exact mul_le_mul_of_nonneg_right (by exact_mod_cast hmle) (le_of_lt h2g)
  rw [hnat] at hfin
  calc flQ p q ≤ (K : ℚ) * (2 : ℚ) ^ (k - gridDe p q) * (2 : ℚ) ^ gridDe p q := hfin
    _ = (K : ℚ) * (2 : ℚ) ^ k := by
        rw [mul_assoc, ← zpow_add₀ (by norm_num : (2:ℚ) ≠ 0), sub_add_cancel]

theorem flQ_mono (p q pb qb : Nat) (hq : 1 ≤ q) (hqb : 1 ≤ qb)
    (hv : (p : ℚ) / q ≤ (pb : ℚ) / qb) : flQ p q ≤ flQ pb qb := by
  rcases Nat.eq_zero_or_pos p with hp0 | hp
  · subst hp0
    rw [flQ_zero q hq]
    exact flQ_nonneg pb qb
  have hqQ : (0 : ℚ) < (q : ℚ) := by exact_mod_cast hq
  have hqbQ : (0 : ℚ) < (qb : ℚ) := by exact_mod_cast hqb
  have hpb : 1 ≤ pb := by
    by_contra h
    have hz : pb = 0 := by omega
    subst hz
    have hvpos : (0 : ℚ) < (p : ℚ) / q :=
      div_pos (by exact_mod_cast hp) hqQ
    rw [Nat.cast_zero, zero_div] at hv
    linarith
  have hgm : gridDe p q ≤ gridDe pb qb := gridDe_mono p q pb qb hp hq hpb hqb hv
  rcases lt_or_eq_of_le hgm with hlt | heq
  · have hgb : gridDe pb qb = expDe pb qb - 52 := by
      have h1 := gridDe_lower p q
      unfold gridDe at hlt ⊢
      omega
    have h1 : flQ p q ≤ (2 : ℚ) ^ (gridDe p q + 53) := by
      unfold flQ
      have hm := redondear_le_pow p q hp hq
      calc (redondear p q : ℚ) * (2 : ℚ) ^ gridDe p q
          ≤ ((2 ^ 53 : ℕ) : ℚ) * (2 : ℚ) ^ gridDe p q :=
            mul_le_mul_of_nonneg_right (by exact_mod_cast hm)
              (le_of_lt (zpow_pos (by norm_num) _))
        _ = (2 : ℚ) ^ (gridDe p q + 53) := cast_pow_mul_zpow 53 _
    have h2 : (2 : ℚ) ^ (gridDe pb qb + 52) ≤ flQ pb qb := by
      unfold flQ
      have hm := redondear_ge_pow pb qb hpb hqb hgb
      calc (2 : ℚ) ^ (gridDe pb qb + 52)
          = ((2 ^ 52 : ℕ) : ℚ) * (2 : ℚ) ^ gridDe pb qb :=
            (cast_pow_mul_zpow 52 _).symm
        _ ≤ (redondear pb qb : ℚ) * (2 : ℚ) ^ gridDe pb qb :=
            mul_le_mul_of_nonneg_right (by exact_mod_cast hm)
              (le_of_lt (zpow_pos (by norm_num) _))
    have h3 : (2 : ℚ) ^ (gridDe p q + 53) ≤ (2 : ℚ) ^ (gridDe pb qb + 52) :=
      zpow_le_zpow_right₀ (by norm_num) (by omega)
    linarith
  · by_contra hcon
    push_neg at hcon
    have h2g : (0 : ℚ) < (2 : ℚ) ^ gridDe p q := zpow_pos (by norm_num) _
    have hmm : redondear pb qb < redondear p q := by
      by_contra hmm
      push_neg at hmm
      have hle2 : flQ p q ≤ flQ pb qb := by
        unfold flQ
        rw [← heq]
        exact mul_le_mul_of_nonneg_right (by exact_mod_cast hmm) (le_of_lt h2g)
      linarith
    have hub := flQ_le_add p q hq
    have hlb := flQ_ge_sub pb qb hqb
    rw [← heq] at hlb
    have hstep : flQ pb qb + (2 : ℚ) ^ gridDe p q ≤ flQ p q := by
      unfold flQ
      rw [← heq]
      have hs1 : (redondear pb qb : ℚ) + 1 ≤ (redondear p q : ℚ) := by
        exact_mod_cast Nat.succ_le_of_lt hmm
      calc (redondear pb qb : ℚ) * (2 : ℚ) ^ gridDe p q + (2 : ℚ) ^ gridDe p q
          = ((redondear pb qb : ℚ) + 1) * (2 : ℚ) ^ gridDe p q := by ring
        _ ≤ (redondear p q : ℚ) * (2 : ℚ) ^ gridDe p q :=
            mul_le_mul_of_nonneg_right hs1 (le_of_lt h2g)
    have hgg : (2 : ℚ) ^ gridDe p q = 2 * (2 : ℚ) ^ (gridDe p q - 1) := by
      rw [zpow_sub₀ (by norm_num : (2:ℚ) ≠ 0), zpow_one]
      ring
    have hveq : flQ p q = (p : ℚ) / q + (2 : ℚ) ^ (gridDe p q - 1) := by linarith
    have hveqb : flQ pb qb = (pb : ℚ) / qb - (2 : ℚ) ^ (gridDe p q - 1) := by linarith
    have he1 := flQ_tie_up p q hq hveq
    have he2 : 2 ∣ redondear pb qb := by
      refine flQ_tie_dn pb qb hqb ?_
      rw [← heq]
      exact hveqb
    have hmeq : redondear p q = redondear pb qb + 1 := by
      have hex : flQ p q = flQ pb qb + (2 : ℚ) ^ gridDe p q := by linarith
      unfold flQ at hex
      rw [← heq] at hex
      have hfac : (redondear p q : ℚ) * (2 : ℚ) ^ gridDe p q =
          ((redondear pb qb : ℚ) + 1) * (2 : ℚ) ^ gridDe p q := by
        rw [hex]
        ring
      have hcc := mul_right_cancel₀ (ne_of_gt h2g) hfac
      exact_mod_cast hcc
    omega

theorem truncDe_eq_floor (m : Nat) (g : Int) :
    ((truncDe m g : Nat) : Int) = ⌊(m : ℚ) * (2 : ℚ) ^ g⌋ := by
  unfold truncDe
  split_ifs with hg
  · rw [← pow_toNat_cast g hg, ← Nat.cast_mul, Int.floor_natCast]
  · have hng : 0 ≤ -g := by omega
    have h2 : (((2 ^ (-g).toNat : ℕ) : ℚ))⁻¹ = (2 : ℚ) ^ g := by
      rw [pow_toNat_cast _ hng, ← zpow_neg, neg_neg]
    rw [← h2, ← div_eq_mul_inv, floor_div_nat]

theorem cienDen_pos (a t : Nat) : 1 ≤ cienDen a t := by
  unfold cienDen mulCienDen
  split
  · omega
  · exact Nat.one_le_two_pow

theorem cien_value (a t : Nat) :
    (cienNum a t : ℚ) / (cienDen a t : ℚ) = 100 * flQ a t := by
  unfold cienNum cienDen mulCienNum mulCienDen flQ
  by_cases hg : 0 ≤ gridDe a t
  · rw [if_pos hg, if_pos hg]
    rw [Nat.cast_one, div_one, Nat.cast_mul, Nat.cast_mul, pow_toNat_cast _ hg]
    push_cast
    ring
  · rw [if_neg hg, if_neg hg]
    have hng : 0 ≤ -gridDe a t := by omega
    rw [Nat.cast_mul, pow_toNat_cast _ hng]
    rw [div_eq_mul_inv, ← zpow_neg, neg_neg]
    push_cast
    ring

theorem porcentajeFloat_int (a t : Nat) :
    ((porcentajeFloat a t : Nat) : Int) =
      ⌊flQ (cienNum a t) (cienDen a t)⌋ := by
  unfold porcentajeFloat flQ
  exact truncDe_eq_floor _ _

theorem grid1_le (a t : Nat) (ha : a ≤ t) (ht : 1 ≤ t) : gridDe a t ≤ -52 := by
  rcases Nat.eq_zero_or_pos a with h0 | hpos
  · subst h0
    have := gridDe_zero_le t
    omega
  · have htQ : (0 : ℚ) < (t : ℚ) := by exact_mod_cast ht
    have hv : (a : ℚ) / t < (2 : ℚ) ^ ((0 : ℤ) + 1) := by
      have h1 : (a : ℚ) / t ≤ 1 := by
        rw [div_le_one htQ]
        exact_mod_cast ha
      have h2 : (2 : ℚ) ^ ((0 : ℤ) + 1) = 2 := by norm_num
      rw [h2]
      linarith
    have := expDe_le a t 0 hpos ht hv
    unfold gridDe
    omega

theorem x_le_one (a t : Nat) (ha : a ≤ t) (ht : 1 ≤ t) : flQ a t ≤ 1 := by
  have htQ : (0 : ℚ) < (t : ℚ) := by exact_mod_cast ht
  have hv : (a : ℚ) / t ≤ ((1 : ℕ) : ℚ) * (2 : ℚ) ^ (0 : ℤ) := by
    have h1 : (a : ℚ) / t ≤ 1 := by
      rw [div_le_one htQ]
      exact_mod_cast ha
    simpa using h1
  have h := flQ_le_bound a t 1 0 ht (by have := grid1_le a t ha ht; omega) hv
  simpa using h

theorem grid2_le (a t : Nat) (ha : a ≤ t) (ht : 1 ≤ t) :
    gridDe (cienNum a t) (cienDen a t) ≤ -46 := by
  rcases Nat.eq_zero_or_pos (cienNum a t) with h0 | hpos
  · rw [h0]
    have := gridDe_zero_le (cienDen a t)
    omega
  · have hv : (cienNum a t : ℚ) / (cienDen a t : ℚ) < (2 : ℚ) ^ ((6 : ℤ) + 1) := by
      rw [cien_value]
      have hx := x_le_one a t ha ht
      have h7 : (2 : ℚ) ^ ((6 : ℤ) + 1) = 128 := by norm_num
      rw [h7]
      linarith
    have := expDe_le _ _ 6 hpos (cienDen_pos a t) hv
    unfold gridDe
    omega

theorem y_le_cien (a t : Nat) (ha : a ≤ t) (ht : 1 ≤ t) :
    flQ (cienNum a t) (cienDen a t) ≤ 100 := by
  have hv : (cienNum a t : ℚ) / (cienDen a t : ℚ) ≤
      ((100 : ℕ) : ℚ) * (2 : ℚ) ^ (0 : ℤ) := by
    rw [cien_value]
    have hx := x_le_one a t ha ht
    have hx0 := flQ_nonneg a t
    simpa using (by linarith : 100 * flQ a t ≤ 100)
  have h := flQ_le_bound (cienNum a t) (cienDen a t) 100 0 (cienDen_pos a t)
    (by have := grid2_le a t ha ht; omega) hv
  simpa using h

theorem porcentajeFloat_le_100 (a t : Nat) (ha : a ≤ t) (ht : 1 ≤ t) :
    porcentajeFloat a t ≤ 100 := by
  have hy := y_le_cien a t ha ht
  have hi := porcentajeFloat_int a t
  have h1 : ((porcentajeFloat a t : Nat) : Int) ≤ 100 := by
    rw [hi]
    calc ⌊flQ (cienNum a t) (cienDen a t)⌋ ≤ ⌊(100 : ℚ)⌋ := Int.floor_mono hy
      _ = 100 := by norm_num
  exact_mod_cast h1

theorem porcentajeFloat_mono (a ab t : Nat) (ht : 1 ≤ t) (hab : a ≤ ab) :
    porcentajeFloat a t ≤ porcentajeFloat ab t := by
  have htQ : (0 : ℚ) < (t : ℚ) := by exact_mod_cast ht
  have hx : flQ a t ≤ flQ ab t := by
    refine flQ_mono a t ab t ht ht ?_
    exact (div_le_div_iff_of_pos_right htQ).mpr (by exact_mod_cast hab)
  have hy : flQ (cienNum a t) (cienDen a t) ≤ flQ (cienNum ab t) (cienDen ab t) := by
    refine flQ_mono _ _ _ _ (cienDen_pos a t) (cienDen_pos ab t) ?_
    rw [cien_value, cien_value]
    linarith
  have h1 := porcentajeFloat_int a t
  have h2 := porcentajeFloat_int ab t
  have h3 : ((porcentajeFloat a t : Nat) : Int) ≤ ((porcentajeFloat ab t : Nat) : Int) := by
    rw [h1, h2]
    exact Int.floor_mono hy
  exact_mod_cast h3

theorem porcentajeFloat_cerca (a t : Nat) (ha : a ≤ t) (ht : 1 ≤ t) :
    a * 100 / t ≤ porcentajeFloat a t + 1 ∧
      porcentajeFloat a t ≤ a * 100 / t + 1 := by
  have htQ : (0 : ℚ) < (t : ℚ) := by exact_mod_cast ht
  have hg1 := grid1_le a t ha ht
  have hg2 := grid2_le a t ha ht
  have hb1 : (2 : ℚ) ^ (gridDe a t - 1) ≤ (2 : ℚ) ^ (-53 : ℤ) :=
    zpow_le_zpow_right₀ (by norm_num) (by omega)
  have hb2 : (2 : ℚ) ^ (gridDe (cienNum a t) (cienDen a t) - 1) ≤ (2 : ℚ) ^ (-47 : ℤ) :=
    zpow_le_zpow_right₀ (by norm_num) (by omega)
  have hxu : flQ a t ≤ (a : ℚ) / t + (2 : ℚ) ^ (-53 : ℤ) :=
    le_trans (flQ_le_add a t ht) (add_le_add_left hb1 _)
  have hxl : (a : ℚ) / t - (2 : ℚ) ^ (-53 : ℤ) ≤ flQ a t :=
    le_trans (sub_le_sub_left hb1 _) (flQ_ge_sub a t ht)
  have hyu0 := flQ_le_add (cienNum a t) (cienDen a t) (cienDen_pos a t)
  have hyl0 := flQ_ge_sub (cienNum a t) (cienDen a t) (cienDen_pos a t)
  rw [cien_value] at hyu0 hyl0
  have hsmall : 100 * (2 : ℚ) ^ (-53 : ℤ) + (2 : ℚ) ^ (-47 : ℤ) < 1 := by norm_num
  have hyu : flQ (cienNum a t) (cienDen a t) < 100 * ((a : ℚ) / t) + 1 := by
    have s1 : flQ (cienNum a t) (cienDen a t) ≤
        100 * flQ a t + (2 : ℚ) ^ (-47 : ℤ) :=
      le_trans hyu0 (add_le_add_left hb2 _)
    have s2 : 100 * flQ a t ≤ 100 * ((a : ℚ) / t + (2 : ℚ) ^ (-53 : ℤ)) :=
      mul_le_mul_of_nonneg_left hxu (by norm_num)
    have s3 : flQ (cienNum a t) (cienDen a t) ≤
        100 * ((a : ℚ) / t) + (100 * (2 : ℚ) ^ (-53 : ℤ) + (2 : ℚ) ^ (-47 : ℤ)) := by
      calc flQ (cienNum a t) (cienDen a t)
          ≤ 100 * flQ a t + (2 : ℚ) ^ (-47 : ℤ) := s1
        _ ≤ 100 * ((a : ℚ) / t + (2 : ℚ) ^ (-53 : ℤ)) + (2 : ℚ) ^ (-47 : ℤ) :=
            add_le_add_right s2 _
        _ = 100 * ((a : ℚ) / t) + (100 * (2 : ℚ) ^ (-53 : ℤ) + (2 : ℚ) ^ (-47 : ℤ)) := by
            ring
    exact lt_of_le_of_lt s3 (add_lt_add_left hsmall _)
  have hyl : 100 * ((a : ℚ) / t) - 1 < flQ (cienNum a t) (cienDen a t) := by
    have s1 : 100 * flQ a t - (2 : ℚ) ^ (-47 : ℤ) ≤ flQ (cienNum a t) (cienDen a t) :=
      le_trans (sub_le_sub_right (le_refl _) _) (le_trans (by
        exact sub_le_sub_left hb2 _) hyl0)
    have s2 : 100 * ((a : ℚ) / t - (2 : ℚ) ^ (-53 : ℤ)) ≤ 100 * flQ a t :=
      mul_le_mul_of_nonneg_left hxl (by norm_num)
    have s3 : 100 * ((a : ℚ) / t) - (100 * (2 : ℚ) ^ (-53 : ℤ) + (2 : ℚ) ^ (-47 : ℤ)) ≤
        flQ (cienNum a t) (cienDen a t) := by
      calc 100 * ((a : ℚ) / t) - (100 * (2 : ℚ) ^ (-53 : ℤ) + (2 : ℚ) ^ (-47 : ℤ))
          = 100 * ((a : ℚ) / t - (2 : ℚ) ^ (-53 : ℤ)) - (2 : ℚ) ^ (-47 : ℤ) := by ring
        _ ≤ 100 * flQ a t - (2 : ℚ) ^ (-47 : ℤ) := sub_le_sub_right s2 _
        _ ≤ flQ (cienNum a t) (cienDen a t) := s1
    exact lt_of_lt_of_le (sub_lt_sub_left hsmall _) s3
  have hI := porcentajeFloat_int a t
  have hfl : ⌊100 * ((a : ℚ) / t)⌋ = ((a * 100 / t : ℕ) : ℤ) := by
    have hv : 100 * ((a : ℚ) / t) = ((a * 100 : ℕ) : ℚ) / t := by
      push_cast
      ring
    rw [hv, floor_div_nat]
  have hfup : ⌊flQ (cienNum a t) (cienDen a t)⌋ ≤ ⌊100 * ((a : ℚ) / t)⌋ + 1 := by
    calc ⌊flQ (cienNum a t) (cienDen a t)⌋ ≤ ⌊100 * ((a : ℚ) / t) + 1⌋ :=
          Int.floor_mono (le_of_lt hyu)
      _ = ⌊100 * ((a : ℚ) / t)⌋ + 1 := Int.floor_add_one _
  have hfdn : ⌊100 * ((a : ℚ) / t)⌋ - 1 ≤ ⌊flQ (cienNum a t) (cienDen a t)⌋ := by
    calc ⌊100 * ((a : ℚ) / t)⌋ - 1 = ⌊100 * ((a : ℚ) / t) - (1 : ℤ)⌋ :=
          (Int.floor_sub_int _ 1).symm
      _ ≤ ⌊flQ (cienNum a t) (cienDen a t)⌋ := by
          refine Int.floor_mono ?_
          push_cast
          linarith [hyl]
  rw [hfl] at hfup hfdn
  rw [← hI] at hfup hfdn
  omega

/-- C8 (amended): the documents progress of a requirement list is
`int((aprobados / total) * 100)` computed in binary64 floating point — within
one unit of the exact truncated percentage `aprobados * 100 / total` — 0
without requirements, never above 100, and monotonically non-decreasing when
the reviewed count grows at constant total. -/
theorem c8_progreso_documentos (l : List Requisito) :
    (l = [] → progresoDocumentos l = 0) ∧
    progresoDocumentos l ≤ 100 ∧
    (l ≠ [] →
      (l.countP fun r => r.estado = .revisado) * 100 / l.length ≤
        progresoDocumentos l + 1 ∧
      progresoDocumentos l ≤
        (l.countP fun r => r.estado = .revisado) * 100 / l.length + 1) ∧
    (∀ l2 : List Requisito, l.length = l2.length →
      (l.countP fun r => r.estado = .revisado) ≤
        (l2.countP fun r => r.estado = .revisado) →
      progresoDocumentos l ≤ progresoDocumentos l2) := by
  refine ⟨?_, ?_, ?_, ?_⟩
  · intro h
    subst h
    rfl
  · unfold progresoDocumentos
    split
    · omega
    · rename_i hne
      simp only [List.isEmpty_iff] at hne
      have hlen : 0 < l.length := List.length_pos.mpr hne
      exact porcentajeFloat_le_100 _ _ (List.countP_le_length _) hlen
  · intro hne
    have hlen : 0 < l.length := List.length_pos.mpr hne
    unfold progresoDocumentos
    rw [if_neg (by simp [List.isEmpty_iff, hne])]
    exact porcentajeFloat_cerca _ _ (List.countP_le_length _) hlen
  · intro l2 hlen hc
    unfold progresoDocumentos
    by_cases hnil : l = []
    · subst hnil
      simp
    · have hne2 : l2 ≠ [] := by
        intro h
        subst h
        simp at hlen
        exact hnil hlen
      rw [if_neg (by simp [List.isEmpty_iff, hnil]),
        if_neg (by simp [List.isEmpty_iff, hne2]), ← hlen]
      exact porcentajeFloat_mono _ _ _ (List.length_pos.mpr hnil) hc

set_option maxRecDepth 8000 in
theorem c8_progreso_documentos_counterexample :
    progresoDocumentos cienRequisitos = 28 ∧
    ((cienRequisitos.countP fun r => r.estado = .revisado : ℚ) /
        (cienRequisitos.length : ℚ)) * 100 ≠ (28 : ℚ) ∧
    (cienRequisitos.countP fun r => r.estado = .revisado) * 100 /
      cienRequisitos.length = 29 ∧
    progresoDocumentos tresRequisitos = 33 ∧
    ((tresRequisitos.countP fun r => r.estado = .revisado : ℚ) /
        (tresRequisitos.length : ℚ)) * 100 ≠ (33 : ℚ) := by
  refine ⟨by decide, ?_, by decide, by decide, ?_⟩
  · have h1 : (cienRequisitos.countP fun r => r.estado = .revisado) = 29 := by decide
    have h2 : cienRequisitos.length = 100 := by decide
    rw [h1, h2]
    norm_num
  · have h1 : (tresRequisitos.countP fun r => r.estado = .revisado) = 1 := by decide
    have h2 : tresRequisitos.length = 3 := by decide
    rw [h1, h2]
    norm_num

theorem c8_progreso_documentos_witness :
    (tresRequisitos.countP fun r => r.estado = .revisado) * 100 /
        tresRequisitos.length ≤ progresoDocumentos tresRequisitos + 1 ∧
      progresoDocumentos tresRequisitos ≤
        (tresRequisitos.countP fun r => r.estado = .revisado) * 100 /
          tresRequisitos.length + 1 :=
  (c8_progreso_documentos tresRequisitos).2.2.1 (by decide)

/-- C9: `obtener_requisitos_por_visa` rejects inactive or absent visa-type
codes, rejects visa types with an empty configured catalog, and otherwise
returns the configured ordered requirement list. -/
theorem c9_requisitos_por_visa (db : DB) (tipoVisaCodigo : String) :
    (existeTipoVisa db tipoVisaCodigo = false →
      obtenerRequisitosPorVisa db tipoVisaCodigo = .error .tipoVisaNoValido) ∧
    (existeTipoVisa db tipoVisaCodigo = true →
      requisitosConfigurados db tipoVisaCodigo = [] →
      obtenerRequisitosPorVisa db tipoVisaCodigo = .error .sinRequisitosConfigurados) ∧
    (existeTipoVisa db tipoVisaCodigo = true →
      requisitosConfigurados db tipoVisaCodigo ≠ [] →
      obtenerRequisitosPorVisa db tipoVisaCodigo =
        .ok (requisitosConfigurados db tipoVisaCodigo)) := by
  unfold obtenerRequisitosPorVisa
  refine ⟨?_, ?_, ?_⟩
  · intro h
    rw [h]
    rfl
  · intro h h2
    rw [h]
    simp [h2]
  · intro h h2
    rw [h]
    simp [h2]

theorem c9_requisitos_por_visa_witness :
    obtenerRequisitosPorVisa dbCatalogo "trabajo" =
      .ok (requisitosConfigurados dbCatalogo "trabajo") ∧
    requisitosConfigurados dbCatalogo "trabajo" = ["ci", "oferta laboral"] :=
  ⟨(c9_requisitos_por_visa dbCatalogo "trabajo").2.2 (by decide) (by decide), rfl⟩

theorem docActual_eq_none (l : List Documento) : docActual l = none ↔ l = [] := by
  cases l with
  | nil => simp [docActual]
  | cons d resto =>
    simp only [docActual]
    cases hm : docActual resto with
    | none => simp
    | some b =>
      dsimp only
      rw [iff_false_intro (List.cons_ne_nil d resto)]
      split <;> simp

theorem docActual_mem (l : List Documento) (d : Documento) (h : docActual l = some d) :
    d ∈ l := by
  induction l generalizing d with
  | nil => simp [docActual] at h
  | cons x xs ih =>
    unfold docActual at h
    cases hm : docActual xs with
    | none => rw [hm] at h; simp_all
    | some b =>
      rw [hm] at h
      dsimp only at h
      split at h
      · simp only [Option.some.injEq] at h
        exact List.mem_cons_of_mem _ (h ▸ ih b hm)
      · simp_all

theorem docActual_max (l : List Documento) (d : Documento) (h : docActual l = some d) :
    ∀ x ∈ l, x.version ≤ d.version := by
  induction l generalizing d with
  | nil => simp [docActual] at h
  | cons y xs ih =>
    unfold docActual at h
    intro x hx
    cases hm : docActual xs with
    | none =>
      rw [hm] at h
      dsimp only at h
      have hxs : xs = [] := (docActual_eq_none xs).mp hm
      subst hxs
      simp only [Option.some.injEq] at h
      subst h
      simp at hx
      subst hx
      exact le_refl _
    | some m =>
      rw [hm] at h
      dsimp only at h
      rcases List.mem_cons.mp hx with hxy | hxxs
      · subst hxy
        split at h <;> simp only [Option.some.injEq] at h <;> subst h
        · omega
        · exact le_refl _
      · split at h <;> simp only [Option.some.injEq] at h <;> subst h
        · exact ih m hm x hxxs
        · have hle := ih m hm x hxxs
          omega

theorem docActual_append_of_gt (l : List Documento) (d : Documento)
    (h : ∀ x ∈ l, x.version < d.version) : docActual (l ++ [d]) = some d := by
  induction l with
  | nil => rfl
  | cons y xs ih =>
    have hys := ih fun x hx => h x (List.mem_cons_of_mem _ hx)
    show docActual (y :: (xs ++ [d])) = some d
    unfold docActual
    rw [hys]
    dsimp only
    rw [if_pos (h y (List.mem_cons_self _ _))]

theorem docActual_map (l : List Documento) (f : Documento → Documento)
    (hv : ∀ x ∈ l, (f x).version = x.version) :
    docActual (l.map f) = (docActual l).map f := by
  induction l with
  | nil => rfl
  | cons y xs ih =>
    have hxs := ih fun x hx => hv x (List.mem_cons_of_mem _ hx)
    show docActual (f y :: xs.map f) = _
    unfold docActual
    rw [hxs]
    cases hm : docActual xs with
    | none => rfl
    | some b =>
      simp only [Option.map_some']
      have hb := docActual_mem xs b hm
      rw [hv y (List.mem_cons_self _ _), hv b (List.mem_cons_of_mem _ hb)]
      by_cases hyb : y.version < b.version <;> simp [hyb]

theorem filter_map_comm {α : Type} (l : List α) (f : α → α) (p : α → Bool)
    (h : ∀ x ∈ l, p (f x) = p x) : (l.map f).filter p = (l.filter p).map f := by
  induction l with
  | nil => rfl
  | cons y xs ih =>
    have hy := h y (List.mem_cons_self _ _)
    have hxs := ih fun x hx => h x (List.mem_cons_of_mem _ hx)
    simp only [List.map_cons, List.filter_cons, hy]
    split <;> simp [hxs]

theorem map_eq_self_of_notin {α : Type} (l : List α) (f : α → α)
    (h : ∀ x ∈ l, f x = x) : l.map f = l := by
  induction l with
  | nil => rfl
  | cons y xs ih =>
    simp only [List.map_cons, h y (List.mem_cons_self _ _),
      ih fun x hx => h x (List.mem_cons_of_mem _ hx)]

theorem eq_of_nodup_key {α β : Type} (key : α → β) (l : List α)
    (hnd : (l.map key).Nodup) (x y : α) (hx : x ∈ l) (hy : y ∈ l)
    (h : key x = key y) : x = y := by
  induction l with
  | nil => simp at hx
  | cons z zs ih =>
    simp only [List.map_cons, List.nodup_cons] at hnd
    rcases List.mem_cons.mp hx with hx1 | hx2 <;>
      rcases List.mem_cons.mp hy with hy1 | hy2
    · rw [hx1, hy1]
    · subst hx1
      exfalso
      exact hnd.1 (h ▸ List.mem_map_of_mem key hy2)
    · subst hy1
      exfalso
      exact hnd.1 (h ▸ List.mem_map_of_mem key hx2)
    · exact ih hnd.2 hx2 hy2

theorem foldr_max_ge (l : List Nat) (x : Nat) (hx : x ∈ l) : x ≤ l.foldr max 0 := by
  induction l with
  | nil => simp at hx
  | cons y xs ih =>
    rcases List.mem_cons.mp hx with h1 | h2
    · subst h1
      simp only [List.foldr_cons]
      exact le_max_left _ _
    · simp only [List.foldr_cons]
      exact le_trans (ih h2) (le_max_right _ _)

theorem nextRequisitoId_fresh (db : DB) (r : Requisito) (hr : r ∈ db.requisitos) :
    r.id ≠ nextRequisitoId db := by
  have := foldr_max_ge (db.requisitos.map Requisito.id) r.id
    (List.mem_map_of_mem _ hr)
  unfold nextRequisitoId
  omega

theorem nextCarpetaId_fresh (db : DB) (c : Carpeta) (hc : c ∈ db.carpetas) :
    c.id ≠ nextCarpetaId db := by
  have := foldr_max_ge (db.carpetas.map Carpeta.id) c.id
    (List.mem_map_of_mem _ hc)
  unfold nextCarpetaId
  omega

theorem documentosDe_updateRequisito (db : DB) (r : Requisito) (rid : Nat) :
    documentosDe (updateRequisito db r) rid = documentosDe db rid := rfl

theorem documentosDe_append (db : DB) (d : Documento) (rid : Nat) :
    documentosDe { db with documentos := db.documentos ++ [d] } rid =
      documentosDe db rid ++ if d.requisitoId == rid then [d] else [] := by
  unfold documentosDe
  rw [List.filter_append]
  simp [List.filter]
  split <;> simp_all

theorem ultimaVersion_max (db : DB) (rid : Nat) (x : Documento)
    (hx : x ∈ documentosDe db rid) : x.version ≤ ultimaVersion db rid := by
  unfold ultimaVersion
  cases hm : docActual (documentosDe db rid) with
  | none =>
    rw [(docActual_eq_none _).mp hm] at hx
    simp at hx
  | some d => exact docActual_max _ _ hm x hx

theorem validarSolicitanteParaCarga_ok (sol : Solicitante)
    (h1 : sol.cedula ≠ "") (h2 : sol.tipoVisa ≠ "") :
    validarSolicitanteParaCarga sol = .ok () := by
  unfold validarSolicitanteParaCarga
  rw [if_neg h1, if_neg h2]

theorem validarSolicitanteParaCarga_err_cedula (sol : Solicitante)
    (h : sol.cedula = "") :
    validarSolicitanteParaCarga sol = .error .sinCedula := by
  unfold validarSolicitanteParaCarga
  rw [if_pos h]

theorem validarSolicitanteParaCarga_err_visa (sol : Solicitante)
    (h1 : sol.cedula ≠ "") (h2 : sol.tipoVisa = "") :
    validarSolicitanteParaCarga sol = .error .sinTipoVisa := by
  unfold validarSolicitanteParaCarga
  rw [if_neg h1, if_pos h2]

theorem validarCargaDocumento_ok_iff (db : DB) (r : Requisito) :
    validarCargaDocumento db r = .ok () ↔ puedeSubirNuevoDocumento db r = true := by
  unfold validarCargaDocumento puedeSubirNuevoDocumento
  cases hc : r.cargaHabilitada
  · simp
  · cases hm : docActual (documentosDe db r.id) with
    | none => simp
    | some d => cases hd : d.estado <;> simp_all

theorem validarCargaDocumento_err_deshabilitada (db : DB) (r : Requisito)
    (h : r.cargaHabilitada = false) :
    validarCargaDocumento db r = .error .cargaDeshabilitada := by
  unfold validarCargaDocumento
  rw [h]
  rfl

theorem validarCargaDocumento_err_pendiente (db : DB) (r : Requisito) (d : Documento)
    (hc : r.cargaHabilitada = true)
    (hm : docActual (documentosDe db r.id) = some d) (hd : d.estado = .pendiente) :
    validarCargaDocumento db r = .error .versionPendiente := by
  unfold validarCargaDocumento puedeSubirNuevoDocumento
  rw [hc, hm]
  dsimp only
  rw [hd]
  rfl

theorem validarCargaDocumento_err_revisado (db : DB) (r : Requisito) (d : Documento)
    (hc : r.cargaHabilitada = true)
    (hm : docActual (documentosDe db r.id) = some d) (hd : d.estado = .revisado) :
    validarCargaDocumento db r = .error .yaAprobado := by
  unfold validarCargaDocumento puedeSubirNuevoDocumento
  rw [hc, hm]
  dsimp only
  rw [hd]
  rfl

theorem documentos_obtenerOCrearCarpeta (db : DB) (solId : Nat) :
    (obtenerOCrearCarpeta db solId).2.documentos = db.documentos := by
  unfold obtenerOCrearCarpeta
  split <;> rfl

theorem requisitos_obtenerOCrearCarpeta (db : DB) (solId : Nat) :
    (obtenerOCrearCarpeta db solId).2.requisitos = db.requisitos := by
  unfold obtenerOCrearCarpeta
  split <;> rfl

theorem documentos_actualizarEstado (db : DB) (r : Requisito) :
    (actualizarEstadoSegunDocumento db r).2.documentos = db.documentos := by
  unfold actualizarEstadoSegunDocumento
  split <;> rfl

theorem updateRequisito_updateRequisito (db : DB) (a b : Requisito) (h : b.id = a.id) :
    updateRequisito (updateRequisito db a) b =
      { db with requisitos := db.requisitos.map fun x => if x.id == a.id then b else x } := by
  unfold updateRequisito
  simp only [List.map_map]
  congr 1
  apply List.map_congr_left
  intro x _
  simp only [Function.comp_apply]
  by_cases hx : x.id = a.id
  · simp [hx, h]
  · have hb : ¬ x.id = b.id := by rw [h]; exact hx
    simp [hx, hb]

theorem ultimaVersion_of_range (db : DB) (rid n : Nat)
    (h : (documentosDe db rid).map Documento.version = List.range' 1 n) :
    ultimaVersion db rid = n := by
  cases n with
  | zero =>
    have hnil : documentosDe db rid = [] := by
      have := h
      rw [List.range'_zero, List.map_eq_nil_iff] at this
      exact this
    unfold ultimaVersion
    rw [(docActual_eq_none _).mpr hnil]
  | succ n =>
    cases hm : docActual (documentosDe db rid) with
    | none =>
      rw [(docActual_eq_none _).mp hm] at h
      simp at h
    | some d =>
      unfold ultimaVersion
      rw [hm]
      dsimp only
      have hd := docActual_mem _ _ hm
      have hdv : d.version ∈ List.range' 1 (n + 1) := by
        rw [← h]
        exact List.mem_map_of_mem _ hd
      rw [List.mem_range'_1] at hdv
      have hn : (n + 1) ∈ List.range' 1 (n + 1) := by
        rw [List.mem_range'_1]
        omega
      rw [← h] at hn
      obtain ⟨x, hx, hxv⟩ := List.mem_map.mp hn
      have := docActual_max _ _ hm x hx
      omega

theorem documentosDe_nucleo (db1 : DB) (r1 : Requisito) (solId : Nat) (na : String) :
    documentosDe (subirDocumentoNucleo db1 r1 solId na).2 r1.id =
      documentosDe db1 r1.id ++ [docNuevo db1 r1.id na] := by
  have hdocs : (subirDocumentoNucleo db1 r1 solId na).2.documentos =
      db1.documentos ++ [docNuevo db1 r1.id na] := by
    unfold subirDocumentoNucleo
    rw [documentos_obtenerOCrearCarpeta, documentos_actualizarEstado]
    rfl
  unfold documentosDe
  rw [hdocs, List.filter_append]
  congr 1
  simp [docNuevo, List.filter]

theorem versiones_lt_docNuevo (db1 : DB) (rid : Nat) (na : String) :
    ∀ x ∈ documentosDe db1 rid, x.version < (docNuevo db1 rid na).version := by
  intro x hx
  have := ultimaVersion_max db1 rid x hx
  simp only [docNuevo]
  omega

theorem docActual_nucleo (db1 : DB) (r1 : Requisito) (solId : Nat) (na : String) :
    docActual (documentosDe (subirDocumentoNucleo db1 r1 solId na).2 r1.id) =
      some (docNuevo db1 r1.id na) := by
  rw [documentosDe_nucleo]
  exact docActual_append_of_gt _ _ (versiones_lt_docNuevo db1 r1.id na)

theorem requisitos_nucleo (db1 : DB) (r1 : Requisito) (solId : Nat) (na : String) :
    (subirDocumentoNucleo db1 r1 solId na).2.requisitos =
      db1.requisitos.map fun x => if x.id == r1.id then
        { r1 with cargaHabilitada := false, estado := .pendiente } else x := by
  unfold subirDocumentoNucleo
  rw [requisitos_obtenerOCrearCarpeta]
  have hdoc : docActual (documentosDe
      (updateRequisito
        { db1 with documentos := db1.documentos ++ [docNuevo db1 r1.id na] }
        { r1 with cargaHabilitada := false })
      (Requisito.id { r1 with cargaHabilitada := false })) =
      some (docNuevo db1 r1.id na) := by
    rw [documentosDe_updateRequisito]
    show docActual (documentosDe
      { db1 with documentos := db1.documentos ++ [docNuevo db1 r1.id na] } r1.id) = _
    rw [documentosDe_append]
    have hif : (if (docNuevo db1 r1.id na).requisitoId == r1.id
        then [docNuevo db1 r1.id na] else []) = [docNuevo db1 r1.id na] := by
      simp [docNuevo]
    rw [hif]
    exact docActual_append_of_gt _ _ (versiones_lt_docNuevo db1 r1.id na)
  unfold actualizarEstadoSegunDocumento
  rw [hdoc]
  dsimp only
  rw [updateRequisito_updateRequisito
    { db1 with documentos := db1.documentos ++ [docNuevo db1 r1.id na] }
    { r1 with cargaHabilitada := false }
    { r1 with estado := (docNuevo db1 r1.id na).estado, cargaHabilitada := false }
    rfl]
  rfl

/-- C4 (amended): an upload is accepted iff `carga_habilitada` is set and
the latest version, if any, is missing/rejected; on success it creates the
version numbered latest + 1 (so versions stay the gapless sequence 1..n)
in state pending-review, disables upload and sets the requirement state to
pending-review; on failure the error says why — upload disabled, a version
pending review, or the document already approved. -/
theorem c4_subir_documento (db : DB) (sol : Solicitante)
    (nombreReq nombreArchivo : String) :
    (sol.cedula = "" →
      subirDocumento db sol nombreReq nombreArchivo = .error .sinCedula) ∧
    (sol.cedula ≠ "" → sol.tipoVisa = "" →
      subirDocumento db sol nombreReq nombreArchivo = .error .sinTipoVisa) ∧
    (∀ r1 db1, sol.cedula ≠ "" → sol.tipoVisa ≠ "" →
      obtenerOCrearRequisito db sol.id nombreReq = (r1, db1) →
      (((∃ d db2, subirDocumento db sol nombreReq nombreArchivo = .ok (d, db2)) ↔
          puedeSubirNuevoDocumento db1 r1 = true) ∧
       (r1.cargaHabilitada = false →
          subirDocumento db sol nombreReq nombreArchivo = .error .cargaDeshabilitada) ∧
       (∀ dAct, r1.cargaHabilitada = true →
          docActual (documentosDe db1 r1.id) = some dAct →
          dAct.estado = .pendiente →
          subirDocumento db sol nombreReq nombreArchivo = .error .versionPendiente) ∧
       (∀ dAct, r1.cargaHabilitada = true →
          docActual (documentosDe db1 r1.id) = some dAct →
          dAct.estado = .revisado →
          subirDocumento db sol nombreReq nombreArchivo = .error .yaAprobado) ∧
       (∀ d db2, subirDocumento db sol nombreReq nombreArchivo = .ok (d, db2) →
          d.estado = .pendiente ∧
          d.requisitoId = r1.id ∧
          d.version = ultimaVersion db1 r1.id + 1 ∧
          (∀ x ∈ documentosDe db1 r1.id, x.version < d.version) ∧
          documentosDe db2 r1.id = documentosDe db1 r1.id ++ [d] ∧
          docActual (documentosDe db2 r1.id) = some d ∧
          (∃ r2, db2.requisitos = db1.requisitos.map
              (fun x => if x.id == r1.id then r2 else x) ∧
            r2.id = r1.id ∧ r2.solicitanteId = r1.solicitanteId ∧
            r2.nombre = r1.nombre ∧
            r2.cargaHabilitada = false ∧ r2.estado = .pendiente) ∧
          (∀ n, (documentosDe db1 r1.id).map Documento.version = List.range' 1 n →
            (documentosDe db2 r1.id).map Documento.version =
              List.range' 1 (n + 1))))) := by
  refine ⟨?_, ?_, ?_⟩
  · intro h
    unfold subirDocumento
    rw [validarSolicitanteParaCarga_err_cedula sol h]
    rfl
  · intro h1 h2
    unfold subirDocumento
    rw [validarSolicitanteParaCarga_err_visa sol h1 h2]
    rfl
  · intro r1 db1 h1 h2 hr
    have e1 : (obtenerOCrearRequisito db sol.id nombreReq).1 = r1 := by rw [hr]
    have e2 : (obtenerOCrearRequisito db sol.id nombreReq).2 = db1 := by rw [hr]
    have hsub : subirDocumento db sol nombreReq nombreArchivo =
        seqE (validarCargaDocumento db1 r1)
          (.ok (subirDocumentoNucleo db1 r1 sol.id nombreArchivo)) := by
      unfold subirDocumento
      rw [validarSolicitanteParaCarga_ok sol h1 h2, seqE_ok_left, e1, e2]
    refine ⟨?_, ?_, ?_, ?_, ?_⟩
    · constructor
      · rintro ⟨d, db2, hok⟩
        rw [hsub] at hok
        cases hv : validarCargaDocumento db1 r1 with
        | error e => rw [hv] at hok; simp [seqE] at hok
        | ok u =>
          cases u
          exact (validarCargaDocumento_ok_iff db1 r1).mp hv
      · intro hp
        rw [hsub, (validarCargaDocumento_ok_iff db1 r1).mpr hp, seqE_ok_left]
        exact ⟨_, _, rfl⟩
    · intro hc
      rw [hsub, validarCargaDocumento_err_deshabilitada db1 r1 hc]
      rfl
    · intro dAct hc hm hd
      rw [hsub, validarCargaDocumento_err_pendiente db1 r1 dAct hc hm hd]
      rfl
    · intro dAct hc hm hd
      rw [hsub, validarCargaDocumento_err_revisado db1 r1 dAct hc hm hd]
      rfl
    · intro d db2 hok
      rw [hsub] at hok
      cases hv : validarCargaDocumento db1 r1 with
      | error e => rw [hv] at hok; simp [seqE] at hok
      | ok u =>
        cases u
        rw [hv, seqE_ok_left] at hok
        simp only [Except.ok.injEq] at hok
        have hd1 : d = (subirDocumentoNucleo db1 r1 sol.id nombreArchivo).1 := by
          rw [hok]
        have hdb1 : db2 = (subirDocumentoNucleo db1 r1 sol.id nombreArchivo).2 := by
          rw [hok]
        subst hd1
        subst hdb1
        refine ⟨rfl, rfl, rfl, versiones_lt_docNuevo db1 r1.id nombreArchivo,
          documentosDe_nucleo db1 r1 sol.id nombreArchivo,
          docActual_nucleo db1 r1 sol.id nombreArchivo,
          ⟨{ r1 with cargaHabilitada := false, estado := .pendiente },
            requisitos_nucleo db1 r1 sol.id nombreArchivo,
            rfl, rfl, rfl, rfl, rfl⟩, ?_⟩
        intro n hn
        rw [documentosDe_nucleo db1 r1 sol.id nombreArchivo, List.map_append, hn]
        have hu : ultimaVersion db1 r1.id = n := ultimaVersion_of_range db1 r1.id n hn
        have hmap : [docNuevo db1 r1.id nombreArchivo].map Documento.version =
            [n + 1] := by
          simp [docNuevo, hu]
        rw [hmap]
        have hconc := @List.range'_concat 1 1 n
        rw [Nat.add_comm n 1] at hconc
        simpa [Nat.add_comm 1 n] using hconc.symm

theorem documentosDe_updateDocumento (db : DB) (d d2 : Documento)
    (hnd : (db.documentos.map Documento.id).Nodup) (hdm : d ∈ db.documentos)
    (hid : d2.id = d.id) (hrid : d2.requisitoId = d.requisitoId) (rid : Nat) :
    documentosDe (updateDocumento db d2) rid =
      (documentosDe db rid).map fun x => if x.id == d2.id then d2 else x := by
  unfold documentosDe updateDocumento
  apply filter_map_comm
  intro x hx
  by_cases hxid : x.id = d2.id
  · have hxd : x = d := eq_of_nodup_key Documento.id db.documentos hnd x d hx hdm
      (by rw [hxid, hid])
    subst hxd
    rw [if_pos (by simp [hxid])]
    simp [hrid, hxid.symm ▸ hid.symm]
  · rw [if_neg (by simp [hxid])]

theorem documentosDe_updateDocumento_id (db : DB) (d d2 : Documento)
    (hnd : (db.documentos.map Documento.id).Nodup) (hdm : d ∈ db.documentos)
    (hid : d2.id = d.id) (hrid : d2.requisitoId = d.requisitoId) (rid : Nat)
    (hne : d.requisitoId ≠ rid) :
    documentosDe (updateDocumento db d2) rid = documentosDe db rid := by
  rw [documentosDe_updateDocumento db d d2 hnd hdm hid hrid rid]
  apply map_eq_self_of_notin
  intro y hy
  rw [if_neg]
  intro hyid
  have hy2 : y ∈ db.documentos := List.mem_of_mem_filter hy
  have : y = d := eq_of_nodup_key Documento.id db.documentos hnd y d hy2 hdm
    (by simpa [hid] using hyid)
  subst this
  have := List.of_mem_filter hy
  simp at this
  exact hne this

theorem docActual_documentosDe_update (db : DB) (d d2 : Documento)
    (hnd : (db.documentos.map Documento.id).Nodup) (hdm : d ∈ db.documentos)
    (hid : d2.id = d.id) (hrid : d2.requisitoId = d.requisitoId)
    (hver : d2.version = d.version) (rid : Nat) :
    docActual (documentosDe (updateDocumento db d2) rid) =
      (docActual (documentosDe db rid)).map
        fun x => if x.id == d2.id then d2 else x := by
  rw [documentosDe_updateDocumento db d d2 hnd hdm hid hrid rid]
  apply docActual_map
  intro x hx
  by_cases hxid : x.id = d2.id
  · have hxd : x = d := eq_of_nodup_key Documento.id db.documentos hnd x d
      (List.mem_of_mem_filter hx) hdm (by rw [hxid, hid])
    subst hxd
    rw [if_pos (by simp [hxid])]
    rw [hver]
  · rw [if_neg (by simp [hxid])]

theorem requisitos_updateDocumento (db : DB) (d2 : Documento) :
    (updateDocumento db d2).requisitos = db.requisitos := rfl

theorem documentos_updateRequisito (db : DB) (r : Requisito) :
    (updateRequisito db r).documentos = db.documentos := rfl

/-- Shared shape of `aprobar_documento` / `rechazar_documento`: replace one
version in place (same id, requirement and number), rewrite the requirement
row, then resynchronise its state from the latest version.  The
latest-version invariant survives. -/
theorem invariante_tras_revision (db : DB) (d d2 : Documento) (r2 : Requisito)
    (hnd : (db.documentos.map Documento.id).Nodup) (hdm : d ∈ db.documentos)
    (hid : d2.id = d.id) (hrid : d2.requisitoId = d.requisitoId)
    (hr2 : r2.id = d.requisitoId)
    (hinv : invarianteEstadoRequisito db) :
    invarianteEstadoRequisito
      (actualizarEstadoSegunDocumento
        (updateRequisito (updateDocumento db d2) r2) r2).2 := by
  unfold actualizarEstadoSegunDocumento
  cases hda : docActual
      (documentosDe (updateRequisito (updateDocumento db d2) r2) r2.id) with
  | none =>
    dsimp only
    intro r' hr' dd hdd
    obtain ⟨x, hx, hfx⟩ := List.mem_map.mp hr'
    by_cases hxid : x.id = r2.id
    · have hrr : r' = r2 := by rw [← hfx, if_pos (by simp [hxid])]
      rw [hrr] at hdd
      rw [hdd] at hda
      simp at hda
    · have hrr : r' = x := by rw [← hfx, if_neg (by simp [hxid])]
      subst hrr
      by_cases hxd : r'.id = d.requisitoId
      · exact absurd (hr2 ▸ hxd) hxid
      · have hdocs : documentosDe (updateRequisito (updateDocumento db d2) r2) r'.id =
            documentosDe db r'.id :=
          documentosDe_updateDocumento_id db d d2 hnd hdm hid hrid r'.id
            fun h => hxd h.symm
        rw [hdocs] at hdd
        exact hinv r' hx dd hdd
  | some dm =>
    dsimp only
    rw [updateRequisito_updateRequisito (updateDocumento db d2) r2
      { r2 with estado := dm.estado } rfl]
    intro r' hr' dd hdd
    obtain ⟨x, hx, hfx⟩ := List.mem_map.mp hr'
    by_cases hxid : x.id = r2.id
    · have hrr : r' = { r2 with estado := dm.estado } := by
        rw [← hfx, if_pos (by simp [hxid])]
      have hdd2 : docActual (documentosDe (updateDocumento db d2) r2.id) = some dd := by
        rw [hrr] at hdd
        exact hdd
      have hda2 : docActual (documentosDe (updateDocumento db d2) r2.id) = some dm := hda
      rw [hda2] at hdd2
      simp only [Option.some.injEq] at hdd2
      rw [hrr, ← hdd2]
    · have hrr : r' = x := by rw [← hfx, if_neg (by simp [hxid])]
      subst hrr
      by_cases hxd : r'.id = d.requisitoId
      · exact absurd (hr2 ▸ hxd) hxid
      · have hdocs : documentosDe (updateDocumento db d2) r'.id =
            documentosDe db r'.id :=
          documentosDe_updateDocumento_id db d d2 hnd hdm hid hrid r'.id
            fun h => hxd h.symm
        have hdd2 : docActual (documentosDe db r'.id) = some dd := by
          rw [← hdocs]
          exact hdd
        exact hinv r' hx dd hdd2

theorem documentosDe_nucleo_other (db1 : DB) (r1 : Requisito) (solId : Nat)
    (na : String) (rid : Nat) (hne : rid ≠ r1.id) :
    documentosDe (subirDocumentoNucleo db1 r1 solId na).2 rid =
      documentosDe db1 rid := by
  have hdocs : (subirDocumentoNucleo db1 r1 solId na).2.documentos =
      db1.documentos ++ [docNuevo db1 r1.id na] := by
    unfold subirDocumentoNucleo
    rw [documentos_obtenerOCrearCarpeta, documentos_actualizarEstado]
    rfl
  unfold documentosDe
  rw [hdocs, List.filter_append]
  have hif : List.filter (fun d => d.requisitoId == rid) [docNuevo db1 r1.id na] = [] := by
    have hbeq : ((docNuevo db1 r1.id na).requisitoId == rid) = false := by
      simp only [docNuevo, beq_eq_false_iff_ne, ne_eq]
      exact fun h => hne h.symm
    simp [List.filter, hbeq]
  rw [hif, List.append_nil]

/-- The latest-version invariant after a successful upload, given it held
for every untouched requirement. -/
theorem invariante_tras_subir (db1 : DB) (r1 : Requisito) (solId : Nat) (na : String)
    (hbase : ∀ x ∈ db1.requisitos, x.id ≠ r1.id →
      ∀ dd, docActual (documentosDe db1 x.id) = some dd → x.estado = dd.estado) :
    invarianteEstadoRequisito (subirDocumentoNucleo db1 r1 solId na).2 := by
  intro r' hr' dd hdd
  rw [requisitos_nucleo db1 r1 solId na] at hr'
  obtain ⟨x, hx, hfx⟩ := List.mem_map.mp hr'
  by_cases hxid : x.id = r1.id
  · have hrr : r' = { r1 with cargaHabilitada := false, estado := .pendiente } := by
      rw [← hfx, if_pos (by simp [hxid])]
    have hdd2 : docActual (documentosDe (subirDocumentoNucleo db1 r1 solId na).2 r1.id) =
        some dd := by
      rw [hrr] at hdd
      exact hdd
    rw [docActual_nucleo db1 r1 solId na] at hdd2
    simp only [Option.some.injEq] at hdd2
    rw [hrr, ← hdd2]
    rfl
  · have hrr : r' = x := by rw [← hfx, if_neg (by simp [hxid])]
    subst hrr
    rw [documentosDe_nucleo_other db1 r1 solId na r'.id hxid] at hdd
    exact hbase r' hx hxid dd hdd

/-- C10: after each of upload, approve and reject, every requirement that
has at least one document version carries exactly the state of its
highest-numbered version (the approve/reject cases assume document ids are
unique, the stored uniqueness constraint). -/
theorem c10_estado_requisito_es_ultima_version (db : DB) :
    (∀ sol nombreReq na d db2,
      subirDocumento db sol nombreReq na = .ok (d, db2) →
      invarianteEstadoRequisito db → invarianteEstadoRequisito db2) ∧
    (∀ d d2 db2, (db.documentos.map Documento.id).Nodup → d ∈ db.documentos →
      aprobarDocumento db d = .ok (d2, db2) →
      invarianteEstadoRequisito db → invarianteEstadoRequisito db2) ∧
    (∀ d razones d2 db2, (db.documentos.map Documento.id).Nodup → d ∈ db.documentos →
      rechazarDocumento db d razones = .ok (d2, db2) →
      invarianteEstadoRequisito db → invarianteEstadoRequisito db2) := by
  refine ⟨?_, ?_, ?_⟩
  · intro sol nombreReq na d db2 hok hinv
    unfold subirDocumento at hok
    cases hs : validarSolicitanteParaCarga sol with
    | error e => rw [hs] at hok; simp [seqE] at hok
    | ok u =>
      cases u
      rw [hs, seqE_ok_left] at hok
      cases hv : validarCargaDocumento (obtenerOCrearRequisito db sol.id nombreReq).2
          (obtenerOCrearRequisito db sol.id nombreReq).1 with
      | error e => rw [hv] at hok; simp [seqE] at hok
      | ok u =>
        cases u
        rw [hv, seqE_ok_left] at hok
        simp only [Except.ok.injEq] at hok
        have hdb2 : db2 = (subirDocumentoNucleo (obtenerOCrearRequisito db sol.id nombreReq).2
            (obtenerOCrearRequisito db sol.id nombreReq).1 sol.id na).2 := by
          rw [hok]
        rw [hdb2]
        apply invariante_tras_subir
        intro x hx hxid dd hdd
        unfold obtenerOCrearRequisito at hx hxid hdd
        cases hf : db.requisitos.find?
            (fun r => r.solicitanteId == sol.id && r.nombre == nombreReq) with
        | some rEnc =>
          rw [hf] at hx hdd
          exact hinv x hx dd hdd
        | none =>
          rw [hf] at hx hxid hdd
          dsimp only at hx hxid hdd
          rcases List.mem_append.mp hx with hx1 | hx2
          · exact hinv x hx1 dd hdd
          · simp at hx2
            rw [hx2] at hxid
            exact absurd rfl hxid
  · intro d d2 db2 hnd hdm hok hinv
    unfold aprobarDocumento at hok
    cases hp : validarDocumentoPendiente d with
    | error e => rw [hp] at hok; simp [seqE] at hok
    | ok u =>
      cases u
      rw [hp, seqE_ok_left] at hok
      cases hf : db.requisitos.find? (fun r => r.id == d.requisitoId) with
      | none => rw [hf] at hok; simp at hok
      | some requisito =>
        rw [hf] at hok
        dsimp only at hok
        simp only [Except.ok.injEq, Prod.mk.injEq] at hok
        have hrid : requisito.id = d.requisitoId := by
          have := List.find?_some hf
          simpa using this
        have hdb2 : db2 = (actualizarEstadoSegunDocumento
            (updateRequisito (updateDocumento db { d with estado := .revisado })
              { requisito with cargaHabilitada := false })
            { requisito with cargaHabilitada := false }).2 := hok.2.symm
        rw [hdb2]
        exact invariante_tras_revision db d { d with estado := .revisado }
          { requisito with cargaHabilitada := false } hnd hdm rfl rfl hrid hinv
  · intro d razones d2 db2 hnd hdm hok hinv
    unfold rechazarDocumento at hok
    cases hp : validarDocumentoPendiente d with
    | error e => rw [hp] at hok; simp [seqE] at hok
    | ok u =>
      cases u
      rw [hp, seqE_ok_left] at hok
      cases hf : db.requisitos.find? (fun r => r.id == d.requisitoId) with
      | none => rw [hf] at hok; simp at hok
      | some requisito =>
        rw [hf] at hok
        dsimp only at hok
        simp only [Except.ok.injEq, Prod.mk.injEq] at hok
        have hrid : requisito.id = d.requisitoId := by
          have := List.find?_some hf
          simpa using this
        have hdb2 : db2 = (actualizarEstadoSegunDocumento
            (updateRequisito (updateDocumento db { d with estado := .faltante })
              { requisito with observaciones := razones, cargaHabilitada := true })
            { requisito with observaciones := razones, cargaHabilitada := true }).2 :=
          hok.2.symm
        rw [hdb2]
        exact invariante_tras_revision db d { d with estado := .faltante }
          { requisito with observaciones := razones, cargaHabilitada := true }
          hnd hdm rfl rfl hrid hinv

theorem c4_subir_documento_counterexample :
    subirDocumento dbParaSubir solFx "ci" "pasaporte.pdf" = .ok (docCiV1, dbTrasSubida) ∧
    subirDocumento dbTrasSubida solFx "ci" "pasaporte.pdf" =
      .error .cargaDeshabilitada ∧
    Err.cargaDeshabilitada ≠ Err.versionPendiente ∧
    Err.cargaDeshabilitada ≠ Err.yaAprobado :=
  ⟨by rfl, by rfl, by decide, by decide⟩

theorem c4_subir_documento_witness :
    subirDocumento dbTrasSubida solFx "ci" "pasaporte.pdf" =
      .error .cargaDeshabilitada :=
  ((c4_subir_documento dbTrasSubida solFx "ci" "pasaporte.pdf").2.2
    requisitoCiPendiente dbTrasSubida (by decide) (by decide) (by decide)).2.1
    (by decide)

theorem c10_estado_requisito_es_ultima_version_witness :
    invarianteEstadoRequisito dbTrasSubida :=
  (c10_estado_requisito_es_ultima_version dbParaSubir).1 solFx "ci" "pasaporte.pdf"
    docCiV1 dbTrasSubida (by rfl)
    (by intro r hr d hd; simp [dbParaSubir, dbVacia] at hr)

theorem find?_carpeta_update (l : List Carpeta) (p : Carpeta → Bool) (c c2 : Carpeta)
    (hf : l.find? p = some c) (hc2id : c2.id = c.id) (hp2 : p c2 = true) :
    (l.map fun x => if x.id == c2.id then c2 else x).find? p = some c2 := by
  induction l with
  | nil => simp at hf
  | cons y t ih =>
    cases hy : p y with
    | true =>
      have hyc : y = c := by
        rw [List.find?_cons_of_pos t hy] at hf
        simpa using hf
      simp only [List.map_cons]
      rw [if_pos (by simp [hyc, hc2id]), List.find?_cons_of_pos _ hp2]
    | false =>
      have hf' : t.find? p = some c := by
        rw [List.find?_cons_of_neg t (by simp [hy])] at hf
        exact hf
      simp only [List.map_cons]
      by_cases hyid : y.id = c2.id
      · rw [if_pos (by simp [hyid]), List.find?_cons_of_pos _ hp2]
      · rw [if_neg (by simp [hyid]), List.find?_cons_of_neg _ (by simp [hy])]
        exact ih hf'

theorem find?_carpeta_append_new (l : List Carpeta) (p : Carpeta → Bool)
    (hnone : l.find? p = none) (cN c2 : Carpeta) (hc2id : c2.id = cN.id)
    (hp2 : p c2 = true) :
    ((l ++ [cN]).map fun x => if x.id == c2.id then c2 else x).find? p = some c2 := by
  induction l with
  | nil =>
    simp only [List.nil_append, List.map_cons, List.map_nil]
    rw [if_pos (by simp [hc2id]), List.find?_cons_of_pos _ hp2]
  | cons y t ih =>
    have hy : ¬ p y = true := by
      rw [List.find?_eq_none] at hnone
      exact hnone y (List.mem_cons_self _ _)
    have hnone' : t.find? p = none := by
      rw [List.find?_cons_of_neg t hy] at hnone
      exact hnone
    simp only [List.cons_append, List.map_cons]
    by_cases hyid : y.id = c2.id
    · rw [if_pos (by simp [hyid]), List.find?_cons_of_pos _ hp2]
    · rw [if_neg (by simp [hyid]), List.find?_cons_of_neg _ hy]
      exact ih hnone'

theorem find?_id_update (l : List Carpeta) (cid : Nat) (carp c2 : Carpeta)
    (hmem : carp ∈ l) (hcarp : carp.id = cid) (hc2 : c2.id = cid) :
    (l.map fun x => if x.id == c2.id then c2 else x).find?
      (fun x => x.id == cid) = some c2 := by
  induction l with
  | nil => simp at hmem
  | cons y t ih =>
    simp only [List.map_cons]
    by_cases hyid : y.id = c2.id
    · rw [if_pos (by simp [hyid]), List.find?_cons_of_pos _ (by simp [hc2])]
    · rw [if_neg (by simp [hyid]),
        List.find?_cons_of_neg _ (by simp; intro h; exact hyid (by rw [h, hc2]))]
      apply ih
      rcases List.mem_cons.mp hmem with h1 | h2
      · exfalso
        exact hyid (by rw [← h1, hcarp, hc2])
      · exact h2

theorem carpeta_tras_marcar (db : DB) (solId : Nat) :
    (marcarCarpetaAprobada db solId).2.carpetas.find?
      (fun c => c.solicitanteId == solId) =
      some { (obtenerOCrearCarpeta db solId).1 with estado := .aprobado } := by
  unfold marcarCarpetaAprobada updateCarpeta obtenerOCrearCarpeta
  cases hf : db.carpetas.find? (fun c => c.solicitanteId == solId) with
  | some c =>
    dsimp only
    apply find?_carpeta_update db.carpetas _ c
      { c with estado := EstadoCarpeta.aprobado } hf rfl
    have := List.find?_some hf
    simpa using this
  | none =>
    dsimp only
    apply find?_carpeta_append_new db.carpetas _ hf (carpetaNueva db solId)
      { carpetaNueva db solId with estado := EstadoCarpeta.aprobado } rfl
    simp [carpetaNueva]

theorem marcar_requisitos (db : DB) (solId : Nat) :
    (marcarCarpetaAprobada db solId).2.requisitos = db.requisitos := by
  unfold marcarCarpetaAprobada updateCarpeta obtenerOCrearCarpeta
  split <;> rfl

theorem marcar_documentos (db : DB) (solId : Nat) :
    (marcarCarpetaAprobada db solId).2.documentos = db.documentos := by
  unfold marcarCarpetaAprobada updateCarpeta obtenerOCrearCarpeta
  split <;> rfl

theorem solicitanteDeDocumento_congr (db1 db2 : DB) (docId : Nat)
    (hd : db1.documentos = db2.documentos) (hr : db1.requisitos = db2.requisitos) :
    solicitanteDeDocumento db1 docId = solicitanteDeDocumento db2 docId := by
  unfold solicitanteDeDocumento
  rw [hd, hr]

theorem aprobarDocumento_ok_doc (db : DB) (d d2 : Documento) (db1 : DB)
    (h : aprobarDocumento db d = .ok (d2, db1)) :
    d2 = { d with estado := .revisado } := by
  unfold aprobarDocumento at h
  cases hp : validarDocumentoPendiente d with
  | error e => rw [hp] at h; simp [seqE] at h
  | ok u =>
    cases u
    rw [hp, seqE_ok_left] at h
    cases hf : db.requisitos.find? (fun r => r.id == d.requisitoId) with
    | none => rw [hf] at h; simp at h
    | some requisito =>
      rw [hf] at h
      dsimp only at h
      simp only [Except.ok.injEq, Prod.mk.injEq] at h
      exact h.1.symm

theorem verificar_congr (db1 db2 : DB) (solId : Nat)
    (hr : db1.requisitos = db2.requisitos) (hd : db1.documentos = db2.documentos) :
    verificarTodosDocumentosRevisados db1 solId =
      verificarTodosDocumentosRevisados db2 solId := by
  unfold verificarTodosDocumentosRevisados documentosDe
  rw [hr]
  simp only [hd]

/-- C5: approving the last pending document of an applicant whose
requirements are then all reviewed marks the applicant's folder `aprobado`;
and the final-visa result is recordable only on a folder in state
`aprobado`, closing it as accepted, or as rejected with the reason stored
in its observations. -/
theorem c5_carpeta_aprobacion_y_cierre (db : DB) :
    (∀ docId obs db', revisarDocumentoPost db docId .aprobar obs = .ok db' →
      ∀ solId, solicitanteDeDocumento db' docId = some solId →
      verificarTodosDocumentosRevisados db' solId = true →
      ∃ carp, db'.carpetas.find? (fun c => c.solicitanteId == solId) = some carp ∧
        carp.estado = .aprobado) ∧
    (∀ carpetaId resultado motivo,
      db.carpetas.find? (fun c => c.id == carpetaId && c.estado == .aprobado) = none →
      registrarResultadoVisaPost db carpetaId resultado motivo = .error .noEncontrado) ∧
    (∀ carpetaId resultado motivo db2,
      registrarResultadoVisaPost db carpetaId resultado motivo = .ok db2 →
      ∃ carp, db.carpetas.find?
        (fun c => c.id == carpetaId && c.estado == .aprobado) = some carp) ∧
    (∀ carpetaId carp motivo,
      db.carpetas.find? (fun c => c.id == carpetaId && c.estado == .aprobado) =
        some carp →
      ∃ db2, registrarResultadoVisaPost db carpetaId .aprobada motivo = .ok db2 ∧
        ∃ c2, db2.carpetas.find? (fun c => c.id == carpetaId) = some c2 ∧
          c2.estado = .cerradaAceptada) ∧
    (∀ carpetaId carp motivo,
      db.carpetas.find? (fun c => c.id == carpetaId && c.estado == .aprobado) =
        some carp →
      ∃ db2, registrarResultadoVisaPost db carpetaId .rechazada motivo = .ok db2 ∧
        ∃ c2, db2.carpetas.find? (fun c => c.id == carpetaId) = some c2 ∧
          c2.estado = .cerradaRechazada ∧ c2.observaciones = motivo) := by
  refine ⟨?_, ?_, ?_, ?_, ?_⟩
  · intro docId obs db' hok solId hsol hveri
    unfold revisarDocumentoPost at hok
    cases hfd : db.documentos.find? (fun d => d.id == docId && d.estado == .pendiente) with
    | none => rw [hfd] at hok; simp at hok
    | some documento =>
      rw [hfd] at hok
      dsimp only at hok
      have hdid : documento.id = docId := by
        have := List.find?_some hfd
        simp only [Bool.and_eq_true, beq_iff_eq] at this
        exact this.1
      cases hap : aprobarDocumento db documento with
      | error e => rw [hap] at hok; simp at hok
      | ok pair =>
        obtain ⟨d2, db1⟩ := pair
        rw [hap] at hok
        dsimp only at hok
        have hd2id : d2.id = docId := by
          rw [aprobarDocumento_ok_doc db documento d2 db1 hap]
          exact hdid
        cases hs : solicitanteDeDocumento db1 d2.id with
        | none =>
          rw [hs] at hok
          simp only [Except.ok.injEq] at hok
          subst hok
          rw [hd2id] at hs
          rw [hs] at hsol
          simp at hsol
        | some s =>
          rw [hs] at hok
          dsimp only at hok
          rw [hd2id] at hs
          by_cases hV : verificarTodosDocumentosRevisados db1 s = true
          · rw [if_pos hV] at hok
            simp only [Except.ok.injEq] at hok
            subst hok
            have hcongr : solicitanteDeDocumento (marcarCarpetaAprobada db1 s).2 docId =
                solicitanteDeDocumento db1 docId :=
              solicitanteDeDocumento_congr _ _ _ (marcar_documentos db1 s)
                (marcar_requisitos db1 s)
            rw [hcongr, hs] at hsol
            simp only [Option.some.injEq] at hsol
            subst hsol
            exact ⟨_, carpeta_tras_marcar db1 s, rfl⟩
          · rw [if_neg hV] at hok
            simp only [Except.ok.injEq] at hok
            subst hok
            rw [hs] at hsol
            simp only [Option.some.injEq] at hsol
            subst hsol
            exact absurd hveri hV
  · intro carpetaId resultado motivo hnone
    unfold registrarResultadoVisaPost
    rw [hnone]
  · intro carpetaId resultado motivo db2 hok
    unfold registrarResultadoVisaPost at hok
    cases hf : db.carpetas.find? (fun c => c.id == carpetaId && c.estado == .aprobado) with
    | none => rw [hf] at hok; simp at hok
    | some carp => exact ⟨carp, rfl⟩
  · intro carpetaId carp motivo hf
    have hmem : carp ∈ db.carpetas := List.mem_of_find?_eq_some hf
    have hcid : carp.id = carpetaId := by
      have := List.find?_some hf
      simp only [Bool.and_eq_true, beq_iff_eq] at this
      exact this.1
    unfold registrarResultadoVisaPost
    rw [hf]
    refine ⟨_, rfl, ?_⟩
    unfold updateCarpeta
    exact ⟨{ carp with estado := .cerradaAceptada },
      find?_id_update db.carpetas carpetaId carp _ hmem hcid hcid, rfl⟩
  · intro carpetaId carp motivo hf
    have hmem : carp ∈ db.carpetas := List.mem_of_find?_eq_some hf
    have hcid : carp.id = carpetaId := by
      have := List.find?_some hf
      simp only [Bool.and_eq_true, beq_iff_eq] at this
      exact this.1
    unfold registrarResultadoVisaPost
    rw [hf]
    refine ⟨_, rfl, ?_⟩
    unfold updateCarpeta
    exact ⟨{ carp with estado := .cerradaRechazada, observaciones := motivo },
      find?_id_update db.carpetas carpetaId carp _ hmem hcid hcid, rfl, rfl⟩

theorem c5_carpeta_aprobacion_y_cierre_witness :
    (∃ carp, dbConCarpetaAprobada.carpetas.find?
        (fun c => c.solicitanteId == 1) = some carp ∧
      carp.estado = .aprobado) ∧
    (∃ db2, registrarResultadoVisaPost dbConCarpetaAprobada 1 .rechazada
        "fondos insuficientes" = .ok db2 ∧
      ∃ c2, db2.carpetas.find? (fun c => c.id == 1) = some c2 ∧
        c2.estado = .cerradaRechazada ∧ c2.observaciones = "fondos insuficientes") :=
  ⟨(c5_carpeta_aprobacion_y_cierre dbTrasSubida).1 1 "" dbConCarpetaAprobada
      (by rfl) 1 (by rfl) (by rfl),
   (c5_carpeta_aprobacion_y_cierre dbConCarpetaAprobada).2.2.2.2 1
      ⟨1, 1, .aprobado, ""⟩ "fondos insuficientes" (by rfl)⟩
